import Mathlib

/-!
# plugin/multicluster/setup.go

A shallow embedding of `setup` and `ParseStanza` from
`plugin/multicluster/setup.go`, together with the parts of the token
dispenser (`caddyfile.Dispenser`, embedded in `caddy.Controller`) that the
two functions drive.

Go pointers to a mutable object become explicit state passing: every
dispenser method returns the updated dispenser next to its Go result. A
closure becomes a constructor (`Hook.bindNsAddrs`, `Plugin.multiCluster`)
next to the function that is its body (`bindNsAddrsFunc`, `addPluginFunc`),
with the instance it captures passed in. An interface value is the sum of its
dynamic types. Loops run on fuel; `ParseStanza_turn_bound` shows that the
fuel ParseStanza starts with is never the reason for a missing result.
-/

namespace multicluster

/-! ## caddyfile.Dispenser

`github.com/coredns/caddy/caddyfile` is a dependency of the repository.
`ParseStanza` is written entirely against its cursor API, so the methods it
calls are embedded here method by method. -/

/-- Token of the lexer: the text of one word, with the file and the line on
which the word starts. -/
structure Token where
  File : String
  Line : Int
  Text : String
deriving DecidableEq, Repr

/-- Dispenser state: `cursor` indexes the loaded token (`-1` before the first
`Next`), `nesting` counts the open blocks. -/
structure Dispenser where
  filename : String
  tokens : List Token
  cursor : Int
  nesting : Int
deriving DecidableEq, Repr

/-- NewDispenserTokens: a dispenser over `tokens` with nothing loaded yet. -/
def NewDispenserTokens (filename : String) (tokens : List Token) : Dispenser :=
  { filename := filename, tokens := tokens, cursor := -1, nesting := 0 }

/-- The Go expression `d.tokens[i]`; every use below is guarded by the same
range test as in the Go code. -/
def Dispenser.tokenAt (d : Dispenser) (i : Int) : Token :=
  d.tokens.getD i.toNat { File := "", Line := 0, Text := "" }

/-- Next loads the next token; false when all tokens are consumed. -/
def Dispenser.Next (d : Dispenser) : Dispenser × Bool :=
  if d.cursor < (d.tokens.length : Int) - 1 then
    ({ d with cursor := d.cursor + 1 }, true)
  else
    (d, false)

/-- The Go call `strings.Count(text, "\n")`. -/
def countLineBreaks (text : String) : Int :=
  ((text.toList.filter (fun ch => ch == Char.ofNat 10)).length : Int)

/-- Method numLineBreaks: the line breaks inside the token at `tknIdx`. -/
def Dispenser.numLineBreaks (d : Dispenser) (tknIdx : Int) : Int :=
  if tknIdx < 0 ∨ tknIdx ≥ (d.tokens.length : Int) then 0
  else countLineBreaks (d.tokenAt tknIdx).Text

/-- NextArg loads the next token if it is on the same line (and in the same
file) as the current one. -/
def Dispenser.NextArg (d : Dispenser) : Dispenser × Bool :=
  if d.cursor < 0 then
    ({ d with cursor := d.cursor + 1 }, true)
  else if d.cursor ≥ (d.tokens.length : Int) then
    (d, false)
  else if d.cursor < (d.tokens.length : Int) - 1 ∧
      (d.tokenAt d.cursor).File = (d.tokenAt (d.cursor + 1)).File ∧
      (d.tokenAt d.cursor).Line + d.numLineBreaks d.cursor
        = (d.tokenAt (d.cursor + 1)).Line then
    ({ d with cursor := d.cursor + 1 }, true)
  else
    (d, false)

/-- Val is the text of the loaded token, or the empty string when none is
loaded. -/
def Dispenser.Val (d : Dispenser) : String :=
  if d.cursor < 0 ∨ d.cursor ≥ (d.tokens.length : Int) then ""
  else (d.tokenAt d.cursor).Text

/-- The loop `for d.NextArg() { ... }` of RemainingArgs. Every turn that goes
on moves the cursor one token forward, so `fuel` only bounds the recursion:
`RemainingArgs` starts it above the number of tokens
(`RemainingArgs_turn_bound`). -/
def Dispenser.remainingArgsLoop : Nat → Dispenser → List String → Dispenser × List String
  | 0, d, args => (d, args)
  | fuel + 1, d, args =>
    let r := d.NextArg
    if r.2 then
      if r.1.Val = "\x7b" then
        ({ r.1 with cursor := r.1.cursor - 1 }, args)
      else
        Dispenser.remainingArgsLoop fuel r.1 (args ++ [r.1.Val])
    else
      (r.1, args)

/-- RemainingArgs loads the remaining tokens of the line and returns their
texts; an opening brace ends the arguments and is not loaded. -/
def Dispenser.RemainingArgs (d : Dispenser) : Dispenser × List String :=
  d.remainingArgsLoop (d.tokens.length + 2) []

/-- NextBlock is the condition of the `for` loop over a block: it loads the
next token while inside the block and returns false once the block has ended
(or when there is no block). -/
def Dispenser.NextBlock (d : Dispenser) : Dispenser × Bool :=
  if d.nesting > 0 then
    let d1 := d.Next.1
    if d1.Val = "\x7d" then
      ({ d1 with nesting := d1.nesting - 1 }, false)
    else
      (d1, true)
  else
    let r := d.NextArg
    if !r.2 then
      (r.1, false)
    else if r.1.Val ≠ "\x7b" then
      ({ r.1 with cursor := r.1.cursor - 1 }, false)
    else
      let d2 := r.1.Next.1
      if d2.Val = "\x7d" then
        (d2, false)
      else
        ({ d2 with nesting := d2.nesting + 1 }, true)

/-- Method File: the file of the loaded token, or the dispenser's own. -/
def Dispenser.File (d : Dispenser) : String :=
  if d.cursor < 0 ∨ d.cursor ≥ (d.tokens.length : Int) then d.filename
  else if (d.tokenAt d.cursor).File ≠ "" then (d.tokenAt d.cursor).File
  else d.filename

/-- Method Line: the line of the loaded token, or 0. -/
def Dispenser.Line (d : Dispenser) : Int :=
  if d.cursor < 0 ∨ d.cursor ≥ (d.tokens.length : Int) then 0
  else (d.tokenAt d.cursor).Line

/-- Go `error` values met in setup.go: `errors.New(text)`, and the wrapper
`plugin.Error(name, err)`, which prefixes an error with the name of the
plugin that reports it. -/
inductive Error where
  | New (text : String)
  | plugin (name : String) (err : Error)
deriving DecidableEq, Repr

/-- Err: an error with the position of the loaded token in front of `msg`. -/
def Dispenser.Err (d : Dispenser) (msg : String) : Error :=
  Error.New (d.File ++ ":" ++ toString d.Line ++ " - Error during parsing: " ++ msg)

/-- Errf is Err on the formatted message; `msg` is what `fmt.Sprintf` made of
the format and its arguments. -/
def Dispenser.Errf (d : Dispenser) (msg : String) : Error :=
  d.Err msg

/-- ArgErr: the argument-count error. -/
def Dispenser.ArgErr (d : Dispenser) : Error :=
  if d.Val = "\x7b" then
    d.Err "Unexpected token '\x7b', expecting argument"
  else
    d.Err ("Wrong argument count or unexpected line ending after '" ++ d.Val ++ "'")

/-! ## Types of the plugin and of its host -/

/-- The struct `kubernetes.Kubernetes` of the sibling plugin. Only the
identity of the value matters here. -/
structure Kubernetes where
  ident : Nat
deriving DecidableEq, Repr

/-- Value of type `plugin.Handler`, by dynamic type. The assertion
`m.(kubernetes.Kubernetes)` of setup.go compiles only because the struct type
has the methods of `plugin.Handler`; the pointer type then has them too, so
both are handlers, next to this plugin's own `*MultiCluster` and any other
implementation (given by its type name and by what its `Name()` returns). -/
inductive Handler where
  | multiCluster
  | kubernetes (x : Kubernetes)
  | kubernetesPtr (x : Kubernetes)
  | other (typ : String) (name : String)
deriving DecidableEq, Repr

/-- Method value `x.NsAddrsPlugin`: the nameserver-address lookup bound to
its receiver. -/
inductive NsAddrsFunc where
  | NsAddrsPlugin (x : Kubernetes)
deriving DecidableEq, Repr

/-- The struct `clientcmd.ConfigOverrides`; its zero value has an empty
`CurrentContext`. -/
structure ConfigOverrides where
  CurrentContext : String := ""
deriving DecidableEq, Repr

/-- The struct `clientcmd.ClientConfigLoadingRules`. -/
structure ClientConfigLoadingRules where
  ExplicitPath : String := ""
deriving DecidableEq, Repr

/-- The deferred-loading client config of clientcmd: it keeps the loading
rules and the overrides and loads nothing until asked. -/
structure DeferredLoadingClientConfig where
  loader : ClientConfigLoadingRules
  overrides : ConfigOverrides
deriving DecidableEq, Repr

/-- The Go call `clientcmd.NewNonInteractiveDeferredLoadingClientConfig`. -/
def NewNonInteractiveDeferredLoadingClientConfig (loader : ClientConfigLoadingRules)
    (overrides : ConfigOverrides) : DeferredLoadingClientConfig :=
  { loader := loader, overrides := overrides }

/-- Modelled from the spec: the zone-set type `fall.F` is not under src/.
It is the set of zones for which "no answer" falls through. -/
structure F where
  Zones : List String := []
deriving DecidableEq, Repr

/-- Modelled from the spec: `SetZonesFromArgs` is not under src/. It "sets the
fallthrough zone set (empty list ⇒ fallthrough for all authority zones, by
convention of the zone-set type)": the set is replaced by the given zones,
each in normal form, and by the root zone, which covers every zone, when none
is given. -/
def F.SetZonesFromArgs (normalize : String → String) (_f : F) (zones : List String) : F :=
  if zones.length = 0 then { Zones := ["."] }
  else { Zones := zones.map normalize }

/-- The struct `controllerOpts`, as far as setup.go uses it. -/
structure controllerOpts where
  initEndpointsCache : Bool := false
deriving DecidableEq, Repr

/-- The plugin instance `MultiCluster`, with the fields setup.go reads or
writes. `none` is Go's nil. -/
structure MultiCluster where
  Next : Option Handler := none
  Zones : List String := []
  ClientConfig : Option DeferredLoadingClientConfig := none
  Fall : F := {}
  opts : controllerOpts := {}
  nsAddrsFunc : Option NsAddrsFunc := none
deriving DecidableEq, Repr

/-- Modelled from the spec: the constructor `New` is not under src/. It
makes a plugin instance for the given authority zones; every other field has
the zero value of its type (no client config, an unset fallthrough set, no
lookup capability bound, no next handler). -/
def New (zones : List String) : MultiCluster :=
  { Zones := zones }

/-- Function value `func() error` made outside setup.go (the `onStart` and
`onShut` of `InitController`), known by a label only. -/
structure Callback where
  label : String
deriving DecidableEq, Repr

/-- Functions of other packages that setup.go calls and that are kept as
parameters: the normal forms of zone names, and `InitController`, which
builds the watch controller from the instance and leaves the fields modelled
here as they are. -/
structure Env where
  /-- origins of the zones given as arguments of the label -/
  originsFromArgs : List String → List String
  /-- origins of the keys of the enclosing server block -/
  originsFromServerBlock : List String → List String
  /-- normal form of one zone name -/
  normalize : String → String
  /-- method `InitController`: the two callbacks (each possibly nil), or an error -/
  InitController : MultiCluster → Except Error (Option Callback × Option Callback)

/-- Modelled from the spec: `plugin.OriginsFromArgsOrServerBlock` is not under
src/. "First token(s) (if present) are the authority zones; if none given,
zones are derived from the enclosing server block's own origins." -/
def OriginsFromArgsOrServerBlock (env : Env) (args serverblock : List String) : List String :=
  if args.length = 0 then env.originsFromServerBlock serverblock
  else env.originsFromArgs args

/-- The constant `pluginName`. -/
def pluginName : String := "multicluster"

/-- Function value `func() error` that setup registers as a hook: a
callback of `InitController`, or the closure of setup.go lines 48-57, which
binds the lookup of the kubernetes plugin. -/
inductive Hook where
  | callback (fn : Callback)
  | bindNsAddrs
deriving DecidableEq, Repr

/-- Value of type `plugin.Plugin` (`func(Handler) Handler`) in the plugin
chain of a server: the closure of setup.go lines 43-46, or one added by
another plugin. -/
inductive Plugin where
  | multiCluster
  | other (label : String)
deriving DecidableEq, Repr

/-- One call into the host: the three ways setup.go changes host state. -/
inductive HostCall where
  | OnStartup (fn : Hook)
  | OnShutdown (fn : Hook)
  | AddPlugin (p : Plugin)
deriving DecidableEq, Repr

/-- The hook lists of `caddy.Instance`. -/
structure Instance where
  OnStartup : List Hook := []
  OnShutdown : List Hook := []
deriving DecidableEq, Repr

/-- The struct `dnsserver.Config`, as far as setup.go reaches it: the plugin
chain under construction and the registry of handlers by name. -/
structure Config where
  Plugin : List Plugin := []
  registry : List (String × Handler) := []
deriving DecidableEq, Repr

/-- The struct `caddy.Controller`: the dispenser it embeds, the keys of the
server block, the instance whose hook lists it appends to, and the server
configuration that `dnsserver.GetConfig(c)` returns. `calls` records the
calls that changed host state, oldest first; it is kept only to state in
which order they were made. -/
structure Controller extends Dispenser where
  ServerBlockKeys : List String := []
  inst : Instance := {}
  config : Config := {}
  calls : List HostCall := []
deriving DecidableEq, Repr

/-- OnStartup appends `fn` to the startup hooks of the instance. -/
def Controller.OnStartup (c : Controller) (fn : Hook) : Controller :=
  { c with inst := { c.inst with OnStartup := c.inst.OnStartup ++ [fn] },
           calls := c.calls ++ [HostCall.OnStartup fn] }

/-- OnShutdown appends `fn` to the shutdown hooks of the instance. -/
def Controller.OnShutdown (c : Controller) (fn : Hook) : Controller :=
  { c with inst := { c.inst with OnShutdown := c.inst.OnShutdown ++ [fn] },
           calls := c.calls ++ [HostCall.OnShutdown fn] }

/-- The Go statement `dnsserver.GetConfig(c).AddPlugin(m)`: `m` is appended
to the plugin chain of the server block. -/
def Controller.AddPlugin (c : Controller) (m : Plugin) : Controller :=
  { c with config := { c.config with Plugin := c.config.Plugin ++ [m] },
           calls := c.calls ++ [HostCall.AddPlugin m] }

/-- Modelled from the spec: `dnsserver.Config.Handler` is not under src/. It
"locates the sibling handler instance in the host's configured chain by a
well-known name"; `none` is the nil handler of an absent name. -/
def Config.Handler (cfg : Config) (name : String) : Option Handler :=
  cfg.registry.lookup name

/-! ## ParseStanza -/

/-- The loop `for c.NextBlock() { switch c.Val() { ... } }` of ParseStanza
(setup.go lines 74-100), on the dispenser of the controller. `none` stands
for a loop that has not ended within `fuel` turns; a returned pair holds the
dispenser as the loop left it and what ParseStanza returns: the error (with a
nil instance), or the instance. -/
def ParseStanza_loop (env : Env) :
    Nat → Dispenser → MultiCluster → Option (Dispenser × Except Error MultiCluster)
  | 0, _, _ => none
  | fuel + 1, c, multiCluster =>
    let b := c.NextBlock
    if b.2 then
      if b.1.Val = "kubeconfig" then
        let r := b.1.RemainingArgs
        let args := r.2
        if args.length ≠ 1 ∧ args.length ≠ 2 then
          some (r.1, .error r.1.ArgErr)
        else
          let overrides : ConfigOverrides :=
            if args.length = 2 then { CurrentContext := args.getD 1 "" } else {}
          let config := NewNonInteractiveDeferredLoadingClientConfig
            { ExplicitPath := args.getD 0 "" } overrides
          ParseStanza_loop env fuel r.1 { multiCluster with ClientConfig := some config }
      else if b.1.Val = "fallthrough" then
        let r := b.1.RemainingArgs
        ParseStanza_loop env fuel r.1
          { multiCluster with Fall := multiCluster.Fall.SetZonesFromArgs env.normalize r.2 }
      else if b.1.Val = "noendpoints" then
        let r := b.1.RemainingArgs
        if r.2.length ≠ 0 then
          some (r.1, .error r.1.ArgErr)
        else
          ParseStanza_loop env fuel r.1
            { multiCluster with opts := { multiCluster.opts with initEndpointsCache := false } }
      else
        some (b.1, .error (b.1.Errf ("unknown property '" ++ b.1.Val ++ "'")))
    else
      some (b.1, .ok multiCluster)

/-- ParseStanza parses a stanza: the instance, or an error and no instance
(Go's `nil, err`), with the controller as the parse left its dispenser.
A turn of the loop that goes on loads at least one token unless the cursor is
on the last one, where a turn that goes on changes nothing and the Go loop
never ends; so more turns than there are tokens never help
(`ParseStanza_turn_bound`), and `none` is a call that does not return. -/
def ParseStanza (env : Env) (c : Controller) :
    Option (Controller × Except Error MultiCluster) :=
  let c1 := c.Next.1 -- Skip "multicluster" label
  let opts : controllerOpts := { initEndpointsCache := true } -- watch endpoints by default
  let r := c1.RemainingArgs
  let zones := OriginsFromArgsOrServerBlock env r.2 c.ServerBlockKeys
  let multiCluster := New zones
  let multiCluster := { multiCluster with opts := opts }
  (ParseStanza_loop env (c.tokens.length + 1) r.1 multiCluster).map
    (fun out => ({ c with toDispenser := out.1 }, out.2))

/-! ## setup -/

/-- How a call ends: it returns, or it panics. -/
inductive Run (α : Type) where
  | returns (a : α)
  | panics
deriving DecidableEq, Repr

/-- The closure `func(next plugin.Handler) plugin.Handler` of setup.go lines
43-46, on the instance it captures: it stores `next` and returns the
instance as the handler. -/
def addPluginFunc (multiCluster : MultiCluster) (next : Handler) : MultiCluster × Handler :=
  ({ multiCluster with Next := some next }, Handler.multiCluster)

/-- The closure `func() error` of setup.go lines 48-57, on the server
configuration and the instance it captures. It returns the instance as it
left it and its error (`none` is nil); the unchecked type assertion
`m.(kubernetes.Kubernetes)` panics when the dynamic type of `m` is any other
type. -/
def bindNsAddrsFunc (cfg : Config) (multiCluster : MultiCluster) :
    Run (MultiCluster × Option Error) :=
  match cfg.Handler "kubernetes" with
  | none =>
    .returns (multiCluster, some (Error.plugin pluginName (Error.New "kubernetes plugin not loaded")))
  | some m =>
    match m with
    | Handler.kubernetes x => -- if found this must be ok
      .returns ({ multiCluster with nsAddrsFunc := some (NsAddrsFunc.NsAddrsPlugin x) }, none)
    | _ => .panics

/-- What setup leaves behind: the controller (with the host state it
appends to), the instance `multiCluster` that the registered closures
capture (`none` when ParseStanza built none), and the returned error (`none`
is nil). -/
structure SetupResult where
  c : Controller
  multiCluster : Option MultiCluster
  err : Option Error
deriving DecidableEq, Repr

/-- The function `setup`. The call `klog.SetLogger` only redirects logging
and is left out. `none` is a call that does not return (see ParseStanza). -/
def setup (env : Env) (c : Controller) : Option SetupResult :=
  match ParseStanza env c with
  | none => none
  | some (c, .error err) =>
    some { c := c, multiCluster := none, err := some (Error.plugin pluginName err) }
  | some (c, .ok multiCluster) =>
    match env.InitController multiCluster with
    | .error err =>
      some { c := c, multiCluster := some multiCluster, err := some (Error.plugin pluginName err) }
    | .ok (onStart, onShut) =>
      let c := match onStart with
        | some fn => c.OnStartup (Hook.callback fn)
        | none => c
      let c := match onShut with
        | some fn => c.OnShutdown (Hook.callback fn)
        | none => c
      -- Add the Plugin to CoreDNS, so Servers can use it in their plugin chain.
      let c := c.AddPlugin Plugin.multiCluster
      let c := c.OnStartup Hook.bindNsAddrs
      some { c := c, multiCluster := some multiCluster, err := none }

/-! ## Stanzas, as token lists with a layout

The claims speak of directives and their arguments. A directive is a name
token followed by argument tokens; the definitions below say when a token
list, as the lexer hands it to the dispenser, is laid out so. -/

/-- The test of NextArg on two neighbouring tokens: same file, and `b` starts
on the line on which `a` ends. -/
def sameLine (a b : Token) : Bool :=
  decide (a.File = b.File ∧ a.Line + countLineBreaks a.Text = b.Line)

/-- The tokens `us` follow `t` on its line, and none is an opening brace:
they are arguments of `t`. -/
def onOneLine : Token → List Token → Bool
  | _, [] => true
  | t, u :: us => sameLine t u && u.Text != "\x7b" && onOneLine u us

/-- The last token of `t :: us`. -/
def lastOf : Token → List Token → Token
  | t, [] => t
  | _, u :: us => lastOf u us

/-- The arguments end after `t`: nothing follows, or what follows is on
another line, or it is an opening brace. -/
def lineEnds (t : Token) : List Token → Bool
  | [] => true
  | u :: _ => !sameLine t u || u.Text == "\x7b"

/-- Nothing follows `t` on its line. -/
def noneFollows (t : Token) : List Token → Bool
  | [] => true
  | u :: _ => !sameLine t u

/-- Directive of a block: its name token and its argument tokens. -/
structure Directive where
  name : Token
  args : List Token
deriving DecidableEq, Repr

/-- The tokens of a directive. -/
def Directive.tokens (d : Directive) : List Token := d.name :: d.args

/-- The last token of a directive. -/
def Directive.last (d : Directive) : Token := lastOf d.name d.args

/-- The texts of the arguments of a directive. -/
def Directive.argTexts (d : Directive) : List String := d.args.map Token.Text

/-- The tokens of a list of directives. -/
def flat : List Directive → List Token
  | [] => []
  | d :: ds => d.tokens ++ flat ds

/-- The directives `ds`, followed by the tokens `post`, are laid out as
directives: no name is a closing brace, the arguments of each are on the line
of its name, and each line ends after the last argument. -/
def laidOut : List Directive → List Token → Bool
  | [], _ => true
  | d :: ds, post =>
    d.name.Text != "\x7d" && onOneLine d.name d.args &&
      lineEnds d.last (flat ds ++ post) && laidOut ds post

/-- The directive is one ParseStanza accepts: `kubeconfig` with one or two
arguments, `fallthrough` with any arguments, `noendpoints` with none. -/
def Directive.valid (d : Directive) : Bool :=
  (d.name.Text == "kubeconfig" && (d.args.length == 1 || d.args.length == 2)) ||
    d.name.Text == "fallthrough" ||
    (d.name.Text == "noendpoints" && d.args.length == 0)

/-- The head of a stanza with a block: the label, the zone arguments and the
opening brace. -/
structure Opening where
  label : Token
  zones : List Token
  brace : Token
deriving DecidableEq, Repr

/-- The tokens of an opening. -/
def Opening.tokens (o : Opening) : List Token := o.label :: o.zones ++ [o.brace]

/-- The zones are arguments of the label and the brace opens the block on the
same line. -/
def Opening.laidOut (o : Opening) : Bool :=
  onOneLine o.label o.zones && sameLine (lastOf o.label o.zones) o.brace &&
    o.brace.Text == "\x7b"

/-- What a valid directive does to the instance, read off the three accepting
branches of the switch in ParseStanza. -/
def Directive.apply (env : Env) (m : MultiCluster) (d : Directive) : MultiCluster :=
  if d.name.Text = "kubeconfig" then
    { m with ClientConfig := some (NewNonInteractiveDeferredLoadingClientConfig
        { ExplicitPath := d.argTexts.getD 0 "" }
        (if d.argTexts.length = 2 then { CurrentContext := d.argTexts.getD 1 "" } else {})) }
  else if d.name.Text = "fallthrough" then
    { m with Fall := m.Fall.SetZonesFromArgs env.normalize d.argTexts }
  else if d.name.Text = "noendpoints" then
    { m with opts := { m.opts with initEndpointsCache := false } }
  else m

/-- The instance as ParseStanza has it when it enters the loop (setup.go
lines 66-72), for the given label arguments and server block keys. -/
def newInstance (env : Env) (args serverblock : List String) : MultiCluster :=
  { New (OriginsFromArgsOrServerBlock env args serverblock) with
    opts := { initEndpointsCache := true } }

/-- The last directive of the list that has the given name. -/
def lastNamed (name : String) : List Directive → Option Directive
  | [] => none
  | d :: ds =>
    match lastNamed name ds with
    | some k => some k
    | none => if d.name.Text = name then some d else none

/-- The block of a stanza: opening brace, directives, closing brace. -/
structure Block where
  brace : Token
  body : List Directive
  close : Token
deriving DecidableEq, Repr

/-- A whole stanza: the label, its zone arguments, and the block when there is
one. -/
structure Stanza where
  label : Token
  zones : List Token
  block : Option Block
deriving DecidableEq, Repr

/-- The directives of a stanza. -/
def Stanza.body (s : Stanza) : List Directive :=
  match s.block with
  | none => []
  | some b => b.body

/-- The tokens of a stanza. -/
def Stanza.tokens (s : Stanza) : List Token :=
  match s.block with
  | none => s.label :: s.zones
  | some b => s.label :: s.zones ++ [b.brace] ++ flat b.body ++ [b.close]

/-- The stanza, followed by the tokens `rest`, is laid out as a stanza: the
zones are arguments of the label; without a block nothing else is on that
line; with a block the brace opens it on that line, the directives are laid
out as directives and the closing brace follows them. -/
def Stanza.laidOut (s : Stanza) (rest : List Token) : Bool :=
  onOneLine s.label s.zones &&
    match s.block with
    | none => noneFollows (lastOf s.label s.zones) rest
    | some b =>
      sameLine (lastOf s.label s.zones) b.brace && b.brace.Text == "\x7b" &&
        multicluster.laidOut b.body (b.close :: rest) && b.close.Text == "\x7d"

/-! ### A sample Corefile, for concrete runs -/

/-- Token of the file `Corefile`. -/
def exToken (line : Int) (text : String) : Token :=
  { File := "Corefile", Line := line, Text := text }

/-- Sample surroundings: names are already in normal form, and InitController
hands out both callbacks. -/
def exEnv : Env :=
  { originsFromArgs := id, originsFromServerBlock := id, normalize := id,
    InitController := fun _ => .ok (some { label := "onStart" }, some { label := "onShut" }) }

/-- Sample surroundings in which InitController fails. -/
def exEnvFail : Env :=
  { exEnv with InitController := fun _ => .error (Error.New "no cluster access") }

/-- The line `multicluster clusterset.local \x7b`. -/
def exOpening : Opening :=
  { label := exToken 1 "multicluster", zones := [exToken 1 "clusterset.local"],
    brace := exToken 1 "\x7b" }

/-- A fresh controller over the given tokens, in the server block of the root
zone. -/
def exController (tokens : List Token) : Controller :=
  { toDispenser := NewDispenserTokens "Corefile" tokens, ServerBlockKeys := ["."] }

/-- The line `fallthrough` on line 2. -/
def exFallthrough : Directive := { name := exToken 2 "fallthrough", args := [] }

/-- The line `kubeconfig` on line 3, with the given arguments. -/
def exKubeconfig (args : List String) : Directive :=
  { name := exToken 3 "kubeconfig", args := args.map (exToken 3) }

/-- The line `noendpoints` on line 4, with the given arguments. -/
def exNoendpoints (args : List String) : Directive :=
  { name := exToken 4 "noendpoints", args := args.map (exToken 4) }

/-- The closing brace on line 5. -/
def exClose : Token := exToken 5 "\x7d"

/-- The sample block with the line `fallthrough`, the directive `k`, and the
closing brace. -/
def exTokens (k : Directive) : List Token :=
  exOpening.tokens ++ flat [exFallthrough] ++ k.tokens ++ [exClose]

/-- The sample stanza with the given directives in its block. -/
def exStanza (body : List Directive) : Stanza :=
  { label := exOpening.label, zones := exOpening.zones,
    block := some { brace := exOpening.brace, body := body, close := exClose } }

/-- The stanza that is the label alone. -/
def exBare : Stanza := { label := exToken 1 "multicluster", zones := [], block := none }

/-- The stanza that is the label and an empty block. -/
def exEmpty : Stanza :=
  { label := exToken 1 "multicluster", zones := [],
    block := some { brace := exToken 1 "\x7b", body := [], close := exToken 2 "\x7d" } }

/-- The sample block `fallthrough`, `kubeconfig cfg ctx`, `noendpoints`. -/
def exBody : List Directive :=
  [exFallthrough, exKubeconfig ["cfg", "ctx"], exNoendpoints []]

/-- The instance ParseStanza returns for the sample stanza with `exBody`. -/
def exInstance : MultiCluster :=
  { Zones := ["clusterset.local"],
    ClientConfig := some { loader := { ExplicitPath := "cfg" },
                           overrides := { CurrentContext := "ctx" } },
    Fall := { Zones := ["."] },
    opts := { initEndpointsCache := false } }

/-- A server configuration whose registry holds, under the name
`kubernetes`, a handler of dynamic type `*kubernetes.Kubernetes`. -/
def exConfigPtr : Config :=
  { registry := [("kubernetes", Handler.kubernetesPtr { ident := 0 })] }

/-- A server configuration whose registry holds, under the name
`kubernetes`, a handler of dynamic type `kubernetes.Kubernetes`. -/
def exConfigValue : Config :=
  { registry := [("kubernetes", Handler.kubernetes { ident := 0 })] }

/-- A server configuration whose registry holds, under the name
`kubernetes`, a handler of another package whose `Name()` is `kubernetes`. -/
def exConfigOther : Config :=
  { registry := [("kubernetes", Handler.other "*example.Handler" "kubernetes")] }

/-- A server configuration without the kubernetes plugin. -/
def exConfigNone : Config :=
  { registry := [("cache", Handler.other "*cache.Cache" "cache")] }

/-- The error of `Dispenser.Err` when the loaded token is `t`. -/
def errAt (filename : String) (t : Token) (msg : String) : Error :=
  Error.New ((if t.File ≠ "" then t.File else filename) ++ ":" ++ toString t.Line ++
    " - Error during parsing: " ++ msg)

/-- The argument-count error of `Dispenser.ArgErr` when the loaded token is `t`. -/
def argErrAt (filename : String) (t : Token) : Error :=
  errAt filename t ("Wrong argument count or unexpected line ending after '" ++ t.Text ++ "'")

/-- The dispenser over `done ++ rest` whose cursor is on the last token of
`done` (on none when `done` is empty). -/
def st (filename : String) (done rest : List Token) (nesting : Int) : Dispenser :=
  { filename := filename, tokens := done ++ rest, cursor := (done.length : Int) - 1,
    nesting := nesting }

/-! ## The dispenser on a laid-out token list

Each lemma evaluates one dispenser method in a state `st fn done rest n`:
the tokens `done` are behind the cursor (the last of them is loaded), the
tokens `rest` are ahead. -/

theorem st_snoc (fn : String) (done : List Token) (u : Token) (rest : List Token) (n : Int) :
    ({ filename := fn, tokens := done ++ u :: rest, cursor := (done.length : Int), nesting := n }
      : Dispenser) = st fn (done ++ [u]) rest n := by
  simp [st]

theorem getD_append_add (done rest : List Token) (k : Nat) (dflt : Token) :
    (done ++ rest).getD (done.length + k) dflt = rest.getD k dflt := by
  induction done with
  | nil => simp
  | cons a l ih =>
    have h : (a :: l).length + k = (l.length + k) + 1 := by simp; omega
    rw [h, List.cons_append, List.getD_cons_succ, ih]

theorem tokenAt_cur (fn : String) (done : List Token) (t : Token) (rest : List Token) (n : Int) :
    (st fn (done ++ [t]) rest n).tokenAt (done.length : Int) = t := by
  have h := getD_append_add done (t :: rest) 0 { File := "", Line := 0, Text := "" }
  simp only [Nat.add_zero] at h
  simp only [st, Dispenser.tokenAt, Int.toNat_ofNat, List.append_assoc, List.singleton_append]
  rw [h]; rfl

theorem tokenAt_succ (fn : String) (done : List Token) (t u : Token) (rest : List Token)
    (n : Int) :
    (st fn (done ++ [t]) (u :: rest) n).tokenAt ((done.length : Int) + 1) = u := by
  have h := getD_append_add done (t :: u :: rest) 1 { File := "", Line := 0, Text := "" }
  have h1 : ((done.length : Int) + 1).toNat = done.length + 1 := by omega
  simp only [st, Dispenser.tokenAt, h1, List.append_assoc, List.singleton_append]
  rw [h]; rfl

theorem Val_st (fn : String) (done : List Token) (t : Token) (rest : List Token) (n : Int) :
    (st fn (done ++ [t]) rest n).Val = t.Text := by
  have h := tokenAt_cur fn done t rest n
  unfold Dispenser.Val
  have hc : (st fn (done ++ [t]) rest n).cursor = (done.length : Int) := by simp [st]
  have hl : ((st fn (done ++ [t]) rest n).tokens.length : Int) = done.length + 1 + rest.length := by
    simp [st]; omega
  rw [hc, hl, h]
  rw [if_neg]
  omega

theorem cursor_st (fn : String) (done : List Token) (t : Token) (rest : List Token) (n : Int) :
    (st fn (done ++ [t]) rest n).cursor = (done.length : Int) := by
  simp [st]

theorem length_st (fn : String) (done : List Token) (t : Token) (rest : List Token) (n : Int) :
    ((st fn (done ++ [t]) rest n).tokens.length : Int) = done.length + 1 + rest.length := by
  simp [st]; omega

theorem Next_st (fn : String) (done : List Token) (u : Token) (rest : List Token) (n : Int) :
    (st fn done (u :: rest) n).Next = (st fn (done ++ [u]) rest n, true) := by
  unfold Dispenser.Next
  have hc : (st fn done (u :: rest) n).cursor < ((st fn done (u :: rest) n).tokens.length : Int) - 1 := by
    simp [st]
  rw [if_pos hc]
  simp [st]

theorem Next_st_nil (fn : String) (done : List Token) (n : Int) :
    (st fn done [] n).Next = (st fn done [] n, false) := by
  unfold Dispenser.Next
  rw [if_neg]
  simp [st]

theorem numLineBreaks_st (fn : String) (done : List Token) (t : Token) (rest : List Token)
    (n : Int) :
    (st fn (done ++ [t]) rest n).numLineBreaks (done.length : Int) = countLineBreaks t.Text := by
  unfold Dispenser.numLineBreaks
  rw [length_st, tokenAt_cur, if_neg]
  omega

theorem NextArg_st (fn : String) (done : List Token) (t u : Token) (rest : List Token)
    (n : Int) :
    (st fn (done ++ [t]) (u :: rest) n).NextArg =
      if sameLine t u then (st fn (done ++ [t] ++ [u]) rest n, true)
      else (st fn (done ++ [t]) (u :: rest) n, false) := by
  unfold Dispenser.NextArg
  rw [cursor_st, length_st, tokenAt_cur, tokenAt_succ, numLineBreaks_st]
  have h1 : ¬ ((done.length : Int) < 0) := by omega
  have h2 : ¬ ((done.length : Int) ≥ done.length + 1 + ((u :: rest).length : Int)) := by
    simp; omega
  have h3 : (done.length : Int) < done.length + 1 + ((u :: rest).length : Int) - 1 := by
    simp; omega
  rw [if_neg h1, if_neg h2]
  by_cases hs : sameLine t u = true
  · have hs2 := hs
    simp only [sameLine, decide_eq_true_eq] at hs2
    rw [if_pos ⟨h3, hs2⟩, if_pos hs]
    simp [st]
    omega
  · have hs2 := hs
    simp only [sameLine, decide_eq_true_eq] at hs2
    rw [if_neg (fun h => hs2 h.2), if_neg hs]

theorem NextArg_st_nil (fn : String) (done : List Token) (t : Token) (n : Int) :
    (st fn (done ++ [t]) [] n).NextArg = (st fn (done ++ [t]) [] n, false) := by
  unfold Dispenser.NextArg
  rw [cursor_st, length_st]
  have h1 : ¬ ((done.length : Int) < 0) := by omega
  have h3 : ¬ ((done.length : Int) < done.length + 1 + (([] : List Token).length : Int) - 1) := by
    simp
  rw [if_neg h1]
  split
  · rfl
  · rw [if_neg (fun h => h3 h.1)]

theorem st_back (fn : String) (done : List Token) (u : Token) (rest : List Token) (n : Int) :
    ({ st fn (done ++ [u]) rest n with cursor := (st fn (done ++ [u]) rest n).cursor - 1 }
      : Dispenser) = st fn done (u :: rest) n := by
  simp [st]

theorem remainingArgsLoop_st (fn : String) (post : List Token) (n : Int) :
    ∀ (args : List Token) (fuel : Nat) (done : List Token) (t : Token) (acc : List String),
      args.length + 1 ≤ fuel → onOneLine t args = true → lineEnds (lastOf t args) post = true →
      Dispenser.remainingArgsLoop fuel (st fn (done ++ [t]) (args ++ post) n) acc =
        (st fn (done ++ [t] ++ args) post n, acc ++ args.map Token.Text) := by
  intro args
  induction args with
  | nil =>
    intro fuel done t acc hf _ hend
    obtain ⟨f, rfl⟩ : ∃ f, fuel = f + 1 := ⟨fuel - 1, by simp at hf; omega⟩
    cases post with
    | nil =>
      simp only [List.append_nil, Dispenser.remainingArgsLoop, NextArg_st_nil, List.map_nil]
      simp
    | cons u rest =>
      simp only [List.nil_append, Dispenser.remainingArgsLoop, NextArg_st, List.map_nil,
        List.append_nil]
      by_cases hs : sameLine t u = true
      · have hu : u.Text = "\x7b" := by
          simpa [lineEnds, lastOf, hs] using hend
        simp only [hs, if_true, Val_st, hu, st_back]
      · simp only [hs]
        simp
  | cons a l ih =>
    intro fuel done t acc hf hone hend
    obtain ⟨f, rfl⟩ : ∃ f, fuel = f + 1 := ⟨fuel - 1, by simp at hf; omega⟩
    have hf2 : l.length + 1 ≤ f := by simp at hf; omega
    simp only [onOneLine, Bool.and_eq_true, bne_iff_ne, ne_eq] at hone
    obtain ⟨⟨hs, ha⟩, hl⟩ := hone
    simp only [lastOf] at hend
    simp only [List.cons_append, Dispenser.remainingArgsLoop, NextArg_st, hs, if_true, Val_st,
      if_neg ha]
    rw [ih f (done ++ [t]) a (acc ++ [a.Text]) hf2 hl hend]
    simp

/-- RemainingArgs in front of the arguments `args`: it returns their texts
and leaves the cursor on the last of them. -/
theorem RemainingArgs_st (fn : String) (done : List Token) (t : Token) (args post : List Token)
    (n : Int) (hone : onOneLine t args = true) (hend : lineEnds (lastOf t args) post = true) :
    (st fn (done ++ [t]) (args ++ post) n).RemainingArgs =
      (st fn (done ++ [t] ++ args) post n, args.map Token.Text) := by
  unfold Dispenser.RemainingArgs
  rw [remainingArgsLoop_st fn post n args _ done t [] _ hone hend]
  · simp
  · simp [st]; omega

theorem NextBlock_in (fn : String) (done : List Token) (u : Token) (rest : List Token) :
    (st fn done (u :: rest) 1).NextBlock =
      if u.Text = "\x7d" then (st fn (done ++ [u]) rest 0, false)
      else (st fn (done ++ [u]) rest 1, true) := by
  unfold Dispenser.NextBlock
  have hn : (st fn done (u :: rest) 1).nesting > 0 := by simp [st]
  rw [if_pos hn]
  simp only [Next_st, Val_st]
  by_cases hu : u.Text = "\x7d"
  · simp [hu, st]
  · simp [hu]

theorem NextBlock_open (fn : String) (done : List Token) (t o u : Token) (rest : List Token)
    (hs : sameLine t o = true) (ho : o.Text = "\x7b") :
    (st fn (done ++ [t]) (o :: u :: rest) 0).NextBlock =
      if u.Text = "\x7d" then (st fn (done ++ [t] ++ [o] ++ [u]) rest 0, false)
      else (st fn (done ++ [t] ++ [o] ++ [u]) rest 1, true) := by
  unfold Dispenser.NextBlock
  have hn : ¬ (st fn (done ++ [t]) (o :: u :: rest) 0).nesting > 0 := by simp [st]
  rw [if_neg hn]
  simp only [NextArg_st, hs, if_true, Val_st, Next_st, ho]
  by_cases hu : u.Text = "\x7d"
  · simp [hu]
  · simp [hu, st]

theorem NextBlock_none (fn : String) (done : List Token) (t : Token) (rest : List Token)
    (h : noneFollows t rest = true) :
    (st fn (done ++ [t]) rest 0).NextBlock = (st fn (done ++ [t]) rest 0, false) := by
  unfold Dispenser.NextBlock
  have hn : ¬ (st fn (done ++ [t]) rest 0).nesting > 0 := by simp [st]
  rw [if_neg hn]
  cases rest with
  | nil => simp [NextArg_st_nil]
  | cons u rest =>
    have hs : sameLine t u = false := by simpa [noneFollows] using h
    simp [NextArg_st, hs]

theorem Err_st (fn : String) (done : List Token) (t : Token) (rest : List Token) (n : Int)
    (msg : String) :
    (st fn (done ++ [t]) rest n).Err msg = errAt fn t msg := by
  have h1 : ¬ ((done.length : Int) < 0 ∨ (done.length : Int) ≥ done.length + 1 + rest.length) := by
    omega
  simp only [Dispenser.Err, Dispenser.File, Dispenser.Line, cursor_st, length_st, tokenAt_cur,
    if_neg h1, errAt]
  rfl

theorem ArgErr_st (fn : String) (done : List Token) (t : Token) (rest : List Token) (n : Int)
    (ht : t.Text ≠ "\x7b") :
    (st fn (done ++ [t]) rest n).ArgErr = argErrAt fn t := by
  simp only [Dispenser.ArgErr, Val_st, if_neg ht, Err_st, argErrAt]

theorem snoc_lastOf (done : List Token) :
    ∀ (args : List Token) (t : Token), ∃ done2, done ++ t :: args = done2 ++ [lastOf t args] := by
  intro args
  induction args generalizing done with
  | nil => intro t; exact ⟨done, rfl⟩
  | cons a l ih =>
    intro t
    obtain ⟨d2, h⟩ := ih (done ++ [t]) a
    exact ⟨d2, by simpa [lastOf] using h⟩

theorem lastOf_text (args : List Token) :
    ∀ (t : Token), t.Text ≠ "\x7b" → onOneLine t args = true → (lastOf t args).Text ≠ "\x7b" := by
  induction args with
  | nil => intro t ht _; exact ht
  | cons a l ih =>
    intro t _ hone
    simp only [onOneLine, Bool.and_eq_true, bne_iff_ne, ne_eq] at hone
    exact ih a hone.1.2 hone.2

theorem ArgErr_last (fn : String) (done : List Token) (d : Directive) (rest : List Token)
    (n : Int) (ht : d.name.Text ≠ "\x7b") (hone : onOneLine d.name d.args = true) :
    (st fn (done ++ d.tokens) rest n).ArgErr = argErrAt fn d.last := by
  obtain ⟨d2, h⟩ := snoc_lastOf done d.args d.name
  simp only [Directive.tokens, Directive.last, h]
  exact ArgErr_st fn d2 _ rest n (lastOf_text d.args d.name ht hone)

/-! ## One turn of the loop of ParseStanza -/

theorem st_tokens (fn : String) (done : List Token) (d : Directive) (post : List Token)
    (n : Int) :
    st fn (done ++ [d.name] ++ d.args) post n = st fn (done ++ d.tokens) post n := by
  simp [Directive.tokens]

/-- One turn of the loop with the cursor in front of a laid-out directive: the
four branches of the switch, by name and number of arguments. -/
theorem loop_step (env : Env) (fn : String) (done : List Token) (d : Directive)
    (post : List Token) (fuel : Nat) (m : MultiCluster)
    (hn : d.name.Text ≠ "\x7d") (hone : onOneLine d.name d.args = true)
    (hend : lineEnds d.last post = true) :
    ParseStanza_loop env (fuel + 1) (st fn done (d.tokens ++ post) 1) m =
      if d.name.Text = "kubeconfig" then
        if d.args.length ≠ 1 ∧ d.args.length ≠ 2 then
          some (st fn (done ++ d.tokens) post 1, .error (argErrAt fn d.last))
        else ParseStanza_loop env fuel (st fn (done ++ d.tokens) post 1) (d.apply env m)
      else if d.name.Text = "fallthrough" then
        ParseStanza_loop env fuel (st fn (done ++ d.tokens) post 1) (d.apply env m)
      else if d.name.Text = "noendpoints" then
        if d.args.length ≠ 0 then
          some (st fn (done ++ d.tokens) post 1, .error (argErrAt fn d.last))
        else ParseStanza_loop env fuel (st fn (done ++ d.tokens) post 1) (d.apply env m)
      else
        some (st fn (done ++ [d.name]) (d.args ++ post) 1,
          .error (errAt fn d.name ("unknown property '" ++ d.name.Text ++ "'"))) := by
  have hR := RemainingArgs_st fn done d.name d.args post 1 hone hend
  rw [st_tokens] at hR
  have hT : d.tokens ++ post = d.name :: (d.args ++ post) := by simp [Directive.tokens]
  rw [hT, ParseStanza_loop]
  simp only [NextBlock_in, if_neg hn, if_true, Val_st, hR, List.length_map]
  by_cases h1 : d.name.Text = "kubeconfig"
  · have hb : d.name.Text ≠ "\x7b" := by rw [h1]; decide
    simp only [h1, if_true, ArgErr_last fn done d post 1 hb hone]
    by_cases h2 : d.args.length ≠ 1 ∧ d.args.length ≠ 2
    · simp only [if_pos h2]
    · simp only [if_neg h2, Directive.apply, h1, if_true, Directive.argTexts, List.length_map]
  · simp only [if_neg h1]
    by_cases h2 : d.name.Text = "fallthrough"
    · simp only [h2, if_true, Directive.apply, Directive.argTexts]
      simp
    · simp only [if_neg h2]
      by_cases h3 : d.name.Text = "noendpoints"
      · have hb : d.name.Text ≠ "\x7b" := by rw [h3]; decide
        simp only [h3, if_true, ArgErr_last fn done d post 1 hb hone]
        by_cases h4 : d.args.length ≠ 0
        · simp only [if_pos h4]
        · simp only [if_neg h4, Directive.apply, h3, if_true]
          simp
      · simp only [if_neg h3, Dispenser.Errf, Err_st]

/-- A run of valid directives costs one turn each, moves the cursor behind
them and applies them to the instance from left to right. -/
theorem loop_valid (env : Env) (fn : String) (post : List Token) :
    ∀ (ds : List Directive) (done : List Token) (fuel : Nat) (m : MultiCluster),
      (∀ d ∈ ds, d.valid = true) → laidOut ds post = true →
      ParseStanza_loop env (fuel + ds.length) (st fn done (flat ds ++ post) 1) m =
        ParseStanza_loop env fuel (st fn (done ++ flat ds) post 1)
          (ds.foldl (Directive.apply env) m) := by
  intro ds
  induction ds with
  | nil => intro done fuel m _ _; simp [flat]
  | cons d l ih =>
    intro done fuel m hv hl
    simp only [laidOut, Bool.and_eq_true, bne_iff_ne, ne_eq] at hl
    obtain ⟨⟨⟨hn, hone⟩, hend⟩, hl2⟩ := hl
    have hd : d.valid = true := hv d (List.mem_cons_self _ _)
    have hv2 : ∀ x ∈ l, x.valid = true := fun x hx => hv x (List.mem_cons_of_mem _ hx)
    have e1 : fuel + (d :: l).length = (fuel + l.length) + 1 := by simp; omega
    have e2 : flat (d :: l) ++ post = d.tokens ++ (flat l ++ post) := by simp [flat]
    rw [e1, e2, loop_step env fn done d (flat l ++ post) (fuel + l.length) m hn hone hend]
    have key : ParseStanza_loop env (fuel + l.length) (st fn (done ++ d.tokens) (flat l ++ post) 1)
        (d.apply env m) =
        ParseStanza_loop env fuel (st fn (done ++ flat (d :: l)) post 1)
          ((d :: l).foldl (Directive.apply env) m) := by
      rw [ih (done ++ d.tokens) fuel (d.apply env m) hv2 hl2]
      simp [flat]
    simp only [Directive.valid, Bool.or_eq_true, Bool.and_eq_true, beq_iff_eq] at hd
    rcases hd with (⟨h1, h2⟩ | h1) | ⟨h1, h2⟩
    · have h3 : ¬ (d.args.length ≠ 1 ∧ d.args.length ≠ 2) := by omega
      rw [if_pos h1, if_neg h3, key]
    · have h0 : d.name.Text ≠ "kubeconfig" := by rw [h1]; decide
      rw [if_neg h0, if_pos h1, key]
    · have h0 : d.name.Text ≠ "kubeconfig" := by rw [h1]; decide
      have h00 : d.name.Text ≠ "fallthrough" := by rw [h1]; decide
      have h3 : ¬ (d.args.length ≠ 0) := by omega
      rw [if_neg h0, if_neg h00, if_pos h1, if_neg h3, key]

theorem loop_close (env : Env) (fn : String) (done : List Token) (cl : Token)
    (rest : List Token) (fuel : Nat) (m : MultiCluster) (hcl : cl.Text = "\x7d") :
    ParseStanza_loop env (fuel + 1) (st fn done (cl :: rest) 1) m =
      some (st fn (done ++ [cl]) rest 0, .ok m) := by
  rw [ParseStanza_loop]
  simp [NextBlock_in, hcl]

theorem NextBlock_open_eq (fn : String) (done : List Token) (t o : Token) (rest : List Token)
    (hs : sameLine t o = true) (ho : o.Text = "\x7b") :
    (st fn (done ++ [t]) (o :: rest) 0).NextBlock = (st fn (done ++ [t] ++ [o]) rest 1).NextBlock := by
  cases rest with
  | cons u rest => rw [NextBlock_open fn done t o u rest hs ho, NextBlock_in]
  | nil =>
    unfold Dispenser.NextBlock
    have hn : ¬ (st fn (done ++ [t]) [o] 0).nesting > 0 := by simp [st]
    have hn2 : (st fn (done ++ [t] ++ [o]) [] 1).nesting > 0 := by simp [st]
    have hb : ¬ ("\x7b" = "\x7d") := by decide
    rw [if_neg hn, if_pos hn2]
    simp only [NextArg_st, hs, if_true, Val_st, Next_st_nil, ho, if_neg hb]
    simp [st]

theorem loop_open (env : Env) (fn : String) (done : List Token) (t o : Token)
    (rest : List Token) (fuel : Nat) (m : MultiCluster)
    (hs : sameLine t o = true) (ho : o.Text = "\x7b") :
    ParseStanza_loop env (fuel + 1) (st fn (done ++ [t]) (o :: rest) 0) m =
      ParseStanza_loop env (fuel + 1) (st fn (done ++ [t] ++ [o]) rest 1) m := by
  rw [ParseStanza_loop, ParseStanza_loop, NextBlock_open_eq fn done t o rest hs ho]

theorem loop_none (env : Env) (fn : String) (done : List Token) (t : Token)
    (rest : List Token) (fuel : Nat) (m : MultiCluster) (h : noneFollows t rest = true) :
    ParseStanza_loop env (fuel + 1) (st fn (done ++ [t]) rest 0) m =
      some (st fn (done ++ [t]) rest 0, .ok m) := by
  rw [ParseStanza_loop]
  simp [NextBlock_none fn done t rest h]

theorem length_flat (ds : List Directive) : ds.length ≤ (flat ds).length := by
  induction ds with
  | nil => simp [flat]
  | cons d l ih => simp [flat, Directive.tokens]; omega

/-! ## ParseStanza up to the loop -/

theorem fresh_st (fn : String) (toks : List Token) :
    NewDispenserTokens fn toks = st fn [] toks 0 := by
  simp [NewDispenserTokens, st]

theorem lineEnds_of_noneFollows (t : Token) (rest : List Token)
    (h : noneFollows t rest = true) : lineEnds t rest = true := by
  cases rest with
  | nil => rfl
  | cons u r =>
    simp only [noneFollows] at h
    simp [lineEnds, h]

theorem ParseStanza_open (env : Env) (fn : String) (c : Controller) (o : Opening)
    (body : List Token) (hc : c.toDispenser = NewDispenserTokens fn (o.tokens ++ body))
    (ho : o.laidOut = true) :
    ParseStanza env c =
      (ParseStanza_loop env ((o.tokens ++ body).length + 1) (st fn o.tokens body 1)
        (newInstance env (o.zones.map Token.Text) c.ServerBlockKeys)).map
        (fun out => ({ c with toDispenser := out.1 }, out.2)) := by
  simp only [Opening.laidOut, Bool.and_eq_true, beq_iff_eq] at ho
  obtain ⟨⟨hone, hs⟩, hb⟩ := ho
  have hend : lineEnds (lastOf o.label o.zones) (o.brace :: body) = true := by
    simp [lineEnds, hb]
  have hR := RemainingArgs_st fn [] o.label o.zones (o.brace :: body) 0 hone hend
  obtain ⟨d2, hd2⟩ := snoc_lastOf [] o.zones o.label
  have hT : o.tokens ++ body = o.label :: (o.zones ++ o.brace :: body) := by
    simp [Opening.tokens]
  unfold ParseStanza
  simp only [hc, fresh_st, hT, Next_st, hR]
  have e1 : ([] : List Token) ++ [o.label] ++ o.zones = d2 ++ [lastOf o.label o.zones] := by
    simpa using hd2
  have e2 : st fn (d2 ++ [lastOf o.label o.zones] ++ [o.brace]) body 1 = st fn o.tokens body 1 := by
    rw [← e1]; simp [Opening.tokens]
  rw [e1, loop_open env fn d2 _ o.brace body _ _ hs hb, e2]
  rfl

theorem ParseStanza_noblock (env : Env) (fn : String) (c : Controller) (label : Token)
    (zones rest : List Token)
    (hc : c.toDispenser = NewDispenserTokens fn (label :: zones ++ rest))
    (hone : onOneLine label zones = true)
    (hnone : noneFollows (lastOf label zones) rest = true) :
    ParseStanza env c =
      some ({ c with toDispenser := st fn (label :: zones) rest 0 },
        .ok (newInstance env (zones.map Token.Text) c.ServerBlockKeys)) := by
  have hend := lineEnds_of_noneFollows _ _ hnone
  have hR := RemainingArgs_st fn [] label zones rest 0 hone hend
  obtain ⟨d2, hd2⟩ := snoc_lastOf [] zones label
  unfold ParseStanza
  have hT : label :: zones ++ rest = label :: (zones ++ rest) := by simp
  simp only [hc, fresh_st, hT, Next_st, hR]
  have e1 : ([] : List Token) ++ [label] ++ zones = d2 ++ [lastOf label zones] := by
    simpa using hd2
  rw [e1, loop_none env fn d2 _ rest _ _ hnone, ← e1]
  simp [newInstance]

/-! ## ParseStanza over a run of valid directives -/

theorem flat_append (ds es : List Directive) : flat (ds ++ es) = flat ds ++ flat es := by
  induction ds with
  | nil => simp [flat]
  | cons d l ih => simp [flat, ih]

theorem laidOut_append (ds es : List Directive) (post : List Token) :
    laidOut (ds ++ es) post = (laidOut ds (flat es ++ post) && laidOut es post) := by
  induction ds with
  | nil => simp [laidOut]
  | cons d l ih =>
    have e : (d :: l) ++ es = d :: (l ++ es) := rfl
    rw [e]
    simp only [laidOut, ih, flat_append, List.append_assoc, Bool.and_assoc]

theorem ParseStanza_upto (env : Env) (fn : String) (c : Controller) (o : Opening)
    (ds : List Directive) (body : List Token)
    (hc : c.toDispenser = NewDispenserTokens fn (o.tokens ++ flat ds ++ body))
    (ho : o.laidOut = true) (hv : ∀ d ∈ ds, d.valid = true) (hl : laidOut ds body = true) :
    ParseStanza env c =
      (ParseStanza_loop env (o.tokens.length + ((flat ds).length - ds.length) + body.length + 1)
        (st fn (o.tokens ++ flat ds) body 1)
        (ds.foldl (Directive.apply env) (newInstance env (o.zones.map Token.Text) c.ServerBlockKeys))).map
        (fun out => ({ c with toDispenser := out.1 }, out.2)) := by
  have hc2 : c.toDispenser = NewDispenserTokens fn (o.tokens ++ (flat ds ++ body)) := by
    rw [hc]; simp
  rw [ParseStanza_open env fn c o (flat ds ++ body) hc2 ho]
  have hlen := length_flat ds
  have e : (o.tokens ++ (flat ds ++ body)).length + 1 =
      (o.tokens.length + ((flat ds).length - ds.length) + body.length + 1) + ds.length := by
    simp; omega
  rw [e, loop_valid env fn body ds o.tokens _ _ hv hl]

theorem ParseStanza_block (env : Env) (fn : String) (c : Controller) (o : Opening)
    (ds : List Directive) (cl : Token) (rest : List Token)
    (hc : c.toDispenser = NewDispenserTokens fn (o.tokens ++ flat ds ++ cl :: rest))
    (ho : o.laidOut = true) (hv : ∀ d ∈ ds, d.valid = true)
    (hl : laidOut ds (cl :: rest) = true) (hcl : cl.Text = "\x7d") :
    ParseStanza env c =
      some ({ c with toDispenser := st fn (o.tokens ++ flat ds ++ [cl]) rest 0 },
        .ok (ds.foldl (Directive.apply env)
          (newInstance env (o.zones.map Token.Text) c.ServerBlockKeys))) := by
  rw [ParseStanza_upto env fn c o ds (cl :: rest) hc ho hv hl]
  have e : o.tokens.length + ((flat ds).length - ds.length) + (cl :: rest).length + 1 =
      (o.tokens.length + ((flat ds).length - ds.length) + rest.length + 1) + 1 := by
    simp; omega
  rw [e, loop_close env fn _ cl rest _ _ hcl]
  rfl

theorem ParseStanza_at (env : Env) (fn : String) (c : Controller) (o : Opening)
    (ds : List Directive) (k : Directive) (rest : List Token)
    (hc : c.toDispenser = NewDispenserTokens fn (o.tokens ++ flat ds ++ k.tokens ++ rest))
    (ho : o.laidOut = true) (hv : ∀ d ∈ ds, d.valid = true)
    (hl : laidOut (ds ++ [k]) rest = true) :
    ParseStanza env c =
      (ParseStanza_loop env
        ((o.tokens.length + ((flat ds).length - ds.length) + k.args.length + rest.length + 1) + 1)
        (st fn (o.tokens ++ flat ds) (k.tokens ++ rest) 1)
        (ds.foldl (Directive.apply env) (newInstance env (o.zones.map Token.Text) c.ServerBlockKeys))).map
        (fun out => ({ c with toDispenser := out.1 }, out.2)) := by
  have hc2 : c.toDispenser = NewDispenserTokens fn (o.tokens ++ flat ds ++ (k.tokens ++ rest)) := by
    rw [hc]; simp
  rw [laidOut_append, Bool.and_eq_true] at hl
  have hl1 : laidOut ds (k.tokens ++ rest) = true := by
    simpa [flat] using hl.1
  rw [ParseStanza_upto env fn c o ds (k.tokens ++ rest) hc2 ho hv hl1]
  have e : o.tokens.length + ((flat ds).length - ds.length) + (k.tokens ++ rest).length + 1 =
      (o.tokens.length + ((flat ds).length - ds.length) + k.args.length + rest.length + 1) + 1 := by
    simp [Directive.tokens]; omega
  rw [e]

theorem laidOut_last (ds : List Directive) (k : Directive) (rest : List Token)
    (hl : laidOut (ds ++ [k]) rest = true) :
    k.name.Text ≠ "\x7d" ∧ onOneLine k.name k.args = true ∧ lineEnds k.last rest = true := by
  rw [laidOut_append, Bool.and_eq_true] at hl
  have h := hl.2
  simp only [laidOut, flat, List.nil_append, Bool.and_eq_true, bne_iff_ne, ne_eq] at h
  exact ⟨h.1.1.1, h.1.1.2, h.1.2⟩

/-! ## What a run of valid directives does to the instance -/

theorem apply_Zones (env : Env) (m : MultiCluster) (d : Directive) :
    (d.apply env m).Zones = m.Zones := by
  unfold Directive.apply; split_ifs <;> rfl

theorem apply_Fall (env : Env) (m : MultiCluster) (d : Directive) :
    (d.apply env m).Fall =
      if d.name.Text = "fallthrough" then m.Fall.SetZonesFromArgs env.normalize d.argTexts
      else m.Fall := by
  unfold Directive.apply; split_ifs <;> simp_all

theorem apply_opts (env : Env) (m : MultiCluster) (d : Directive) :
    (d.apply env m).opts.initEndpointsCache =
      if d.name.Text = "noendpoints" then false else m.opts.initEndpointsCache := by
  unfold Directive.apply; split_ifs <;> simp_all

theorem apply_ClientConfig (env : Env) (m : MultiCluster) (d : Directive) :
    (d.apply env m).ClientConfig =
      if d.name.Text = "kubeconfig" then
        some { loader := { ExplicitPath := d.argTexts.getD 0 "" },
               overrides := if d.argTexts.length = 2 then { CurrentContext := d.argTexts.getD 1 "" }
                            else {} }
      else m.ClientConfig := by
  unfold Directive.apply; split_ifs <;> simp_all [NewNonInteractiveDeferredLoadingClientConfig]

theorem foldl_Zones (env : Env) (ds : List Directive) :
    ∀ m : MultiCluster, (ds.foldl (Directive.apply env) m).Zones = m.Zones := by
  induction ds with
  | nil => intro m; rfl
  | cons d l ih => intro m; rw [List.foldl_cons, ih, apply_Zones]

theorem foldl_Fall (env : Env) (ds : List Directive) :
    ∀ m : MultiCluster, (ds.foldl (Directive.apply env) m).Fall =
      match lastNamed "fallthrough" ds with
      | none => m.Fall
      | some d => m.Fall.SetZonesFromArgs env.normalize d.argTexts := by
  induction ds with
  | nil => intro m; rfl
  | cons d l ih =>
    intro m
    rw [List.foldl_cons, ih, lastNamed]
    cases lastNamed "fallthrough" l with
    | some k => rfl
    | none =>
      simp only [apply_Fall]
      split_ifs <;> rfl

theorem foldl_ClientConfig (env : Env) (ds : List Directive) :
    ∀ m : MultiCluster, (ds.foldl (Directive.apply env) m).ClientConfig =
      match lastNamed "kubeconfig" ds with
      | none => m.ClientConfig
      | some d =>
        some { loader := { ExplicitPath := d.argTexts.getD 0 "" },
               overrides := if d.argTexts.length = 2 then { CurrentContext := d.argTexts.getD 1 "" }
                            else {} } := by
  induction ds with
  | nil => intro m; rfl
  | cons d l ih =>
    intro m
    rw [List.foldl_cons, ih, lastNamed]
    cases lastNamed "kubeconfig" l with
    | some k => rfl
    | none =>
      simp only [apply_ClientConfig]
      by_cases h : d.name.Text = "kubeconfig"
      · simp only [h, if_true]
      · simp only [h, if_false]

theorem foldl_opts (env : Env) (ds : List Directive) :
    ∀ m : MultiCluster, (ds.foldl (Directive.apply env) m).opts.initEndpointsCache =
      (m.opts.initEndpointsCache && !(ds.any (fun d => d.name.Text == "noendpoints"))) := by
  induction ds with
  | nil => intro m; simp
  | cons d l ih =>
    intro m
    rw [List.foldl_cons, ih, apply_opts]
    by_cases h : d.name.Text = "noendpoints"
    · simp [h]
    · have hb : (d.name.Text == "noendpoints") = false := beq_eq_false_iff_ne.mpr h
      simp [h, hb]

theorem lastNamed_mem (name : String) (ds : List Directive) (k : Directive)
    (h : lastNamed name ds = some k) : k ∈ ds ∧ k.name.Text = name := by
  induction ds with
  | nil => simp [lastNamed] at h
  | cons d l ih =>
    rw [lastNamed] at h
    cases hl : lastNamed name l with
    | some x =>
      rw [hl] at h
      simp only [Option.some.injEq] at h
      subst h
      exact ⟨List.mem_cons_of_mem _ (ih hl).1, (ih hl).2⟩
    | none =>
      rw [hl] at h
      by_cases hd : d.name.Text = name
      · simp only [hd, if_true, Option.some.injEq] at h
        subst h
        exact ⟨List.mem_cons_self _ _, hd⟩
      · simp [hd] at h

/-! ## ParseStanza on a whole stanza -/

/-- A laid-out stanza whose directives are all valid is accepted, and the
instance is the new one with the directives applied from left to right. -/
theorem ParseStanza_valid (env : Env) (fn : String) (c : Controller) (s : Stanza)
    (rest : List Token) (hc : c.toDispenser = NewDispenserTokens fn (s.tokens ++ rest))
    (hl : s.laidOut rest = true) (hv : ∀ d ∈ s.body, d.valid = true) :
    ParseStanza env c =
      some ({ c with toDispenser := st fn s.tokens rest 0 },
        .ok (s.body.foldl (Directive.apply env)
          (newInstance env (s.zones.map Token.Text) c.ServerBlockKeys))) := by
  obtain ⟨label, zones, block⟩ := s
  cases block with
  | none =>
    simp only [Stanza.laidOut, Bool.and_eq_true] at hl
    simp only [Stanza.tokens] at hc
    rw [ParseStanza_noblock env fn c label zones rest hc hl.1 hl.2]
    simp [Stanza.tokens, Stanza.body]
  | some b =>
    simp only [Stanza.laidOut, Bool.and_eq_true, beq_iff_eq] at hl
    obtain ⟨hone, ⟨⟨hs, hb⟩, hlay⟩, hcl⟩ := hl
    have ho : (Opening.mk label zones b.brace).laidOut = true := by
      simp [Opening.laidOut, hone, hs, hb]
    have hc2 : c.toDispenser = NewDispenserTokens fn
        ((Opening.mk label zones b.brace).tokens ++ flat b.body ++ b.close :: rest) := by
      rw [hc]; simp [Stanza.tokens, Opening.tokens]
    rw [ParseStanza_block env fn c _ b.body b.close rest hc2 ho hv hlay hcl]
    simp [Stanza.tokens, Stanza.body, Opening.tokens]

theorem first_invalid (ds : List Directive) :
    (∀ d ∈ ds, d.valid = true) ∨
      ∃ ds1 u ds2, ds = ds1 ++ u :: ds2 ∧ (∀ d ∈ ds1, d.valid = true) ∧ u.valid = false := by
  induction ds with
  | nil => left; simp
  | cons d l ih =>
    by_cases hd : d.valid = true
    · rcases ih with h | ⟨ds1, u, ds2, e, h1, h2⟩
      · left
        intro x hx
        rcases List.mem_cons.mp hx with rfl | hx
        · exact hd
        · exact h x hx
      · right
        refine ⟨d :: ds1, u, ds2, by simp [e], ?_, h2⟩
        intro x hx
        rcases List.mem_cons.mp hx with rfl | hx
        · exact hd
        · exact h1 x hx
    · right
      exact ⟨[], d, l, rfl, by simp, by simpa using hd⟩

theorem loop_invalid (env : Env) (fn : String) (done : List Token) (u : Directive)
    (post : List Token) (fuel : Nat) (m : MultiCluster)
    (hn : u.name.Text ≠ "\x7d") (hone : onOneLine u.name u.args = true)
    (hend : lineEnds u.last post = true) (hu : u.valid = false) :
    ∃ d e, ParseStanza_loop env (fuel + 1) (st fn done (u.tokens ++ post) 1) m =
      some (d, .error e) := by
  rw [loop_step env fn done u post fuel m hn hone hend]
  simp only [Directive.valid, Bool.or_eq_false_iff, Bool.and_eq_false_iff, beq_eq_false_iff_ne,
    ne_eq] at hu
  obtain ⟨⟨h1, h2⟩, h3⟩ := hu
  by_cases k1 : u.name.Text = "kubeconfig"
  · have h4 : u.args.length ≠ 1 ∧ u.args.length ≠ 2 := by
      rcases h1 with h | h
      · exact absurd k1 h
      · simpa using h
    rw [if_pos k1, if_pos h4]
    exact ⟨_, _, rfl⟩
  · rw [if_neg k1, if_neg h2]
    by_cases k3 : u.name.Text = "noendpoints"
    · have h4 : u.args.length ≠ 0 := by
        rcases h3 with h | h
        · exact absurd k3 h
        · simpa using h
      rw [if_pos k3, if_pos h4]
      exact ⟨_, _, rfl⟩
    · rw [if_neg k3]
      exact ⟨_, _, rfl⟩

/-- A laid-out stanza with a directive that is not valid is rejected with an
error (at the first such directive). -/
theorem ParseStanza_rejects (env : Env) (fn : String) (c : Controller) (s : Stanza)
    (rest : List Token) (hc : c.toDispenser = NewDispenserTokens fn (s.tokens ++ rest))
    (hl : s.laidOut rest = true) (hinv : ¬ ∀ d ∈ s.body, d.valid = true) :
    ∃ c2 e, ParseStanza env c = some (c2, .error e) := by
  obtain ⟨label, zones, block⟩ := s
  cases block with
  | none => exact absurd (by simp [Stanza.body]) hinv
  | some b =>
    rcases first_invalid b.body with h | ⟨ds1, u, ds2, e, h1, h2⟩
    · exact absurd (by simpa [Stanza.body] using h) hinv
    · simp only [Stanza.laidOut, Bool.and_eq_true, beq_iff_eq] at hl
      obtain ⟨hone, ⟨⟨hs, hb⟩, hlay⟩, hcl⟩ := hl
      have ho : (Opening.mk label zones b.brace).laidOut = true := by
        simp [Opening.laidOut, hone, hs, hb]
      have e2 : ds1 ++ u :: ds2 = (ds1 ++ [u]) ++ ds2 := by simp
      rw [e, e2, laidOut_append, Bool.and_eq_true] at hlay
      have hc2 : c.toDispenser = NewDispenserTokens fn
          ((Opening.mk label zones b.brace).tokens ++ flat ds1 ++ u.tokens ++
            (flat ds2 ++ b.close :: rest)) := by
        rw [hc]; simp [Stanza.tokens, Opening.tokens, e, flat_append, flat]
      have hat := ParseStanza_at env fn c _ ds1 u (flat ds2 ++ b.close :: rest) hc2 ho h1 hlay.1
      obtain ⟨hn, hone2, hend⟩ := laidOut_last ds1 u _ hlay.1
      obtain ⟨d, er, hloop⟩ := loop_invalid env fn
        ((Opening.mk label zones b.brace).tokens ++ flat ds1) u (flat ds2 ++ b.close :: rest)
        ((Opening.mk label zones b.brace).tokens.length + ((flat ds1).length - ds1.length) +
          u.args.length + (flat ds2 ++ b.close :: rest).length + 1)
        (ds1.foldl (Directive.apply env)
          (newInstance env (zones.map Token.Text) c.ServerBlockKeys)) hn hone2 hend h2
      rw [hloop] at hat
      exact ⟨_, er, hat⟩

/-- A laid-out stanza that is accepted has valid directives only. -/
theorem ParseStanza_accepts (env : Env) (fn : String) (c : Controller) (s : Stanza)
    (rest : List Token) (hc : c.toDispenser = NewDispenserTokens fn (s.tokens ++ rest))
    (hl : s.laidOut rest = true) (c2 : Controller) (m : MultiCluster)
    (hacc : ParseStanza env c = some (c2, .ok m)) :
    ∀ d ∈ s.body, d.valid = true := by
  by_contra hinv
  obtain ⟨c3, e, h⟩ := ParseStanza_rejects env fn c s rest hc hl hinv
  rw [h] at hacc
  simp at hacc

theorem loop_unknown (env : Env) (fn : String) (done : List Token) (u : Token)
    (rest : List Token) (fuel : Nat) (m : MultiCluster) (hn : u.Text ≠ "\x7d")
    (h1 : u.Text ≠ "kubeconfig") (h2 : u.Text ≠ "fallthrough") (h3 : u.Text ≠ "noendpoints") :
    ParseStanza_loop env (fuel + 1) (st fn done (u :: rest) 1) m =
      some (st fn (done ++ [u]) rest 1,
        .error (errAt fn u ("unknown property '" ++ u.Text ++ "'"))) := by
  rw [ParseStanza_loop]
  simp only [NextBlock_in, if_neg hn, if_true, Val_st, if_neg h1, if_neg h2, if_neg h3,
    Dispenser.Errf, Err_st]

theorem getElem?_zero_getD (l : List String) (h : 1 ≤ l.length) :
    l[0]? = some (l.getD 0 "") := by
  cases l with
  | nil => simp at h
  | cons a t => simp

theorem getElem?_one_getD (l : List String) (h : 2 ≤ l.length) :
    l[1]? = some (l.getD 1 "") := by
  match l, h with
  | _ :: _ :: _, _ => simp

/-! ## The claims about ParseStanza -/

/-- C1: in a block whose directives before a `kubeconfig` directive are all
valid, ParseStanza returns the argument-count error and no instance when that
directive has no argument or three or more; when it has one or two, the
directive raises no error: the call returns what the loop returns when it
goes on behind the directive, with the client config set, and with a turn
left for every token that follows. -/
theorem kubeconfig_argument_count (env : Env) (fn : String) (c : Controller) (o : Opening)
    (ds : List Directive) (k : Directive) (rest : List Token)
    (hc : c.toDispenser = NewDispenserTokens fn (o.tokens ++ flat ds ++ k.tokens ++ rest))
    (ho : o.laidOut = true) (hv : ∀ d ∈ ds, d.valid = true)
    (hl : laidOut (ds ++ [k]) rest = true) (hk : k.name.Text = "kubeconfig") :
    ((k.args.length = 0 ∨ 3 ≤ k.args.length) →
      ParseStanza env c =
        some ({ c with toDispenser := st fn (o.tokens ++ flat ds ++ k.tokens) rest 1 },
          .error (st fn (o.tokens ++ flat ds ++ k.tokens) rest 1).ArgErr) ∧
      (st fn (o.tokens ++ flat ds ++ k.tokens) rest 1).ArgErr = argErrAt fn k.last) ∧
    ((k.args.length = 1 ∨ k.args.length = 2) →
      ∃ fuel, rest.length + 1 ≤ fuel ∧
        ParseStanza env c =
          (ParseStanza_loop env fuel (st fn (o.tokens ++ flat ds ++ k.tokens) rest 1)
            (k.apply env (ds.foldl (Directive.apply env)
              (newInstance env (o.zones.map Token.Text) c.ServerBlockKeys)))).map
            (fun out => ({ c with toDispenser := out.1 }, out.2))) := by
  obtain ⟨hn, hone, hend⟩ := laidOut_last ds k rest hl
  have hat := ParseStanza_at env fn c o ds k rest hc ho hv hl
  rw [loop_step env fn _ k rest _ _ hn hone hend, if_pos hk] at hat
  constructor
  · intro h
    have h2 : k.args.length ≠ 1 ∧ k.args.length ≠ 2 := by omega
    have hb : k.name.Text ≠ "\x7b" := by rw [hk]; decide
    have hA := ArgErr_last fn (o.tokens ++ flat ds) k rest 1 hb hone
    rw [if_pos h2] at hat
    rw [hat, hA]; simp
  · intro h
    have h2 : ¬ (k.args.length ≠ 1 ∧ k.args.length ≠ 2) := by omega
    rw [if_neg h2] at hat
    exact ⟨o.tokens.length + ((flat ds).length - ds.length) + k.args.length + rest.length + 1,
      by omega, hat⟩

/-- C1 at sample blocks: `fallthrough`, then `kubeconfig` with no argument,
with three arguments, and with two. -/
theorem kubeconfig_argument_count_witness :
    (ParseStanza exEnv (exController (exTokens (exKubeconfig []))) =
      some ({ exController (exTokens (exKubeconfig [])) with
          toDispenser := st "Corefile"
            (exOpening.tokens ++ flat [exFallthrough] ++ (exKubeconfig []).tokens) [exClose] 1 },
        .error (st "Corefile"
          (exOpening.tokens ++ flat [exFallthrough] ++ (exKubeconfig []).tokens) [exClose] 1).ArgErr) ∧
      (st "Corefile"
          (exOpening.tokens ++ flat [exFallthrough] ++ (exKubeconfig []).tokens) [exClose] 1).ArgErr
        = argErrAt "Corefile" (exKubeconfig []).last) ∧
    (ParseStanza exEnv (exController (exTokens (exKubeconfig ["a", "b", "c"]))) =
      some ({ exController (exTokens (exKubeconfig ["a", "b", "c"])) with
          toDispenser := st "Corefile"
            (exOpening.tokens ++ flat [exFallthrough] ++ (exKubeconfig ["a", "b", "c"]).tokens)
            [exClose] 1 },
        .error (st "Corefile"
          (exOpening.tokens ++ flat [exFallthrough] ++ (exKubeconfig ["a", "b", "c"]).tokens)
          [exClose] 1).ArgErr) ∧
      (st "Corefile"
          (exOpening.tokens ++ flat [exFallthrough] ++ (exKubeconfig ["a", "b", "c"]).tokens)
          [exClose] 1).ArgErr
        = argErrAt "Corefile" (exKubeconfig ["a", "b", "c"]).last) ∧
    (∃ fuel, [exClose].length + 1 ≤ fuel ∧
      ParseStanza exEnv (exController (exTokens (exKubeconfig ["cfg", "ctx"]))) =
        (ParseStanza_loop exEnv fuel (st "Corefile"
            (exOpening.tokens ++ flat [exFallthrough] ++ (exKubeconfig ["cfg", "ctx"]).tokens)
            [exClose] 1)
          ((exKubeconfig ["cfg", "ctx"]).apply exEnv ([exFallthrough].foldl (Directive.apply exEnv)
            (newInstance exEnv (exOpening.zones.map Token.Text) ["."])))).map
          (fun out => ({ exController (exTokens (exKubeconfig ["cfg", "ctx"])) with
            toDispenser := out.1 }, out.2))) :=
  ⟨(kubeconfig_argument_count exEnv "Corefile" _ exOpening [exFallthrough] (exKubeconfig [])
      [exClose] rfl (by decide) (by decide) (by decide) rfl).1 (Or.inl rfl),
   (kubeconfig_argument_count exEnv "Corefile" _ exOpening [exFallthrough]
      (exKubeconfig ["a", "b", "c"]) [exClose] rfl (by decide) (by decide) (by decide) rfl).1
      (Or.inr (by decide)),
   (kubeconfig_argument_count exEnv "Corefile" _ exOpening [exFallthrough]
      (exKubeconfig ["cfg", "ctx"]) [exClose] rfl (by decide) (by decide) (by decide) rfl).2
      (Or.inr rfl)⟩

/-- C2: when ParseStanza accepts a stanza and `k` is the last `kubeconfig`
directive of its block, the `ClientConfig` of the returned instance is a
deferred-loading config whose explicit path is the first argument of `k`;
`k` has one or two arguments; with one the context override is empty, with
two it is the second argument. -/
theorem kubeconfig_client_config (env : Env) (fn : String) (c : Controller) (s : Stanza)
    (rest : List Token) (c2 : Controller) (m : MultiCluster) (k : Directive)
    (hc : c.toDispenser = NewDispenserTokens fn (s.tokens ++ rest))
    (hl : s.laidOut rest = true)
    (hacc : ParseStanza env c = some (c2, .ok m))
    (hk : lastNamed "kubeconfig" s.body = some k) :
    ∃ cfg : DeferredLoadingClientConfig, m.ClientConfig = some cfg ∧
      k.argTexts[0]? = some cfg.loader.ExplicitPath ∧
      (k.args.length = 1 ∨ k.args.length = 2) ∧
      (k.args.length = 1 → cfg.overrides.CurrentContext = "") ∧
      (k.args.length = 2 → k.argTexts[1]? = some cfg.overrides.CurrentContext) := by
  have hv := ParseStanza_accepts env fn c s rest hc hl c2 m hacc
  have hval := ParseStanza_valid env fn c s rest hc hl hv
  rw [hval] at hacc
  simp only [Option.some.injEq, Prod.mk.injEq, Except.ok.injEq] at hacc
  obtain ⟨hmem, hname⟩ := lastNamed_mem _ _ _ hk
  have hkv := hv k hmem
  have hlen : k.args.length = 1 ∨ k.args.length = 2 := by
    simp only [Directive.valid, hname, Bool.or_eq_true, Bool.and_eq_true, beq_iff_eq] at hkv
    rcases hkv with (⟨_, h⟩ | h) | ⟨h, _⟩
    · exact h
    · exact absurd h (by decide)
    · exact absurd h (by decide)
  have hlen2 : k.argTexts.length = k.args.length := by simp [Directive.argTexts]
  refine ⟨{ loader := { ExplicitPath := k.argTexts.getD 0 "" },
             overrides := if k.argTexts.length = 2 then { CurrentContext := k.argTexts.getD 1 "" }
                          else {} }, ?_, ?_, hlen, ?_, ?_⟩
  · rw [← hacc.2, foldl_ClientConfig, hk]
  · exact getElem?_zero_getD _ (by omega)
  · intro h1
    have : ¬ k.argTexts.length = 2 := by omega
    simp [this]
  · intro h2
    have : k.argTexts.length = 2 := by omega
    simp only [this, if_true]
    exact getElem?_one_getD _ (by omega)

/-- C2 at the sample stanza with the block `fallthrough`,
`kubeconfig cfg ctx`, `noendpoints`. -/
theorem kubeconfig_client_config_witness :
    ∃ cfg : DeferredLoadingClientConfig, exInstance.ClientConfig = some cfg ∧
      (exKubeconfig ["cfg", "ctx"]).argTexts[0]? = some cfg.loader.ExplicitPath ∧
      ((exKubeconfig ["cfg", "ctx"]).args.length = 1 ∨
        (exKubeconfig ["cfg", "ctx"]).args.length = 2) ∧
      ((exKubeconfig ["cfg", "ctx"]).args.length = 1 → cfg.overrides.CurrentContext = "") ∧
      ((exKubeconfig ["cfg", "ctx"]).args.length = 2 →
        (exKubeconfig ["cfg", "ctx"]).argTexts[1]? = some cfg.overrides.CurrentContext) :=
  kubeconfig_client_config exEnv "Corefile" (exController ((exStanza exBody).tokens ++ []))
    (exStanza exBody) []
    { exController ((exStanza exBody).tokens ++ []) with
      toDispenser := st "Corefile" (exStanza exBody).tokens [] 0 }
    exInstance (exKubeconfig ["cfg", "ctx"]) rfl (by decide) rfl rfl

/-- C3: in a block whose directives before a `noendpoints` directive are all
valid, ParseStanza returns the argument-count error and no instance when that
directive has an argument; when it has none and the directives after it are
valid too, up to the closing brace, ParseStanza returns an instance whose
`opts.initEndpointsCache` is false, whichever valid directives stand before
or after it. -/
theorem noendpoints_arguments (env : Env) (fn : String) (o : Opening) (ds : List Directive)
    (k : Directive) (ho : o.laidOut = true) (hv : ∀ d ∈ ds, d.valid = true)
    (hk : k.name.Text = "noendpoints") :
    (∀ (c : Controller) (rest : List Token),
      c.toDispenser = NewDispenserTokens fn (o.tokens ++ flat ds ++ k.tokens ++ rest) →
      laidOut (ds ++ [k]) rest = true → k.args ≠ [] →
      ParseStanza env c =
        some ({ c with toDispenser := st fn (o.tokens ++ flat ds ++ k.tokens) rest 1 },
          .error (st fn (o.tokens ++ flat ds ++ k.tokens) rest 1).ArgErr) ∧
      (st fn (o.tokens ++ flat ds ++ k.tokens) rest 1).ArgErr = argErrAt fn k.last) ∧
    (∀ (c : Controller) (after : List Directive) (cl : Token) (rest : List Token),
      c.toDispenser =
        NewDispenserTokens fn (o.tokens ++ flat (ds ++ k :: after) ++ cl :: rest) →
      laidOut (ds ++ k :: after) (cl :: rest) = true → cl.Text = "\x7d" →
      (∀ d ∈ after, d.valid = true) → k.args = [] →
      ∃ m, ParseStanza env c =
          some ({ c with toDispenser := st fn (o.tokens ++ flat (ds ++ k :: after) ++ [cl]) rest 0 },
            .ok m) ∧
        m.opts.initEndpointsCache = false) := by
  constructor
  · intro c rest hc hl hargs
    obtain ⟨hn, hone, hend⟩ := laidOut_last ds k rest hl
    have hat := ParseStanza_at env fn c o ds k rest hc ho hv hl
    have h0 : k.name.Text ≠ "kubeconfig" := by rw [hk]; decide
    have h00 : k.name.Text ≠ "fallthrough" := by rw [hk]; decide
    have h2 : k.args.length ≠ 0 := by
      cases hka : k.args with
      | nil => exact absurd hka hargs
      | cons a t => simp
    have hb : k.name.Text ≠ "\x7b" := by rw [hk]; decide
    have hA := ArgErr_last fn (o.tokens ++ flat ds) k rest 1 hb hone
    rw [loop_step env fn _ k rest _ _ hn hone hend, if_neg h0, if_neg h00, if_pos hk,
      if_pos h2] at hat
    rw [hat, hA]; simp
  · intro c after cl rest hc hl hcl hva hargs
    have hkv : k.valid = true := by simp [Directive.valid, hk, hargs]
    have hall : ∀ d ∈ ds ++ k :: after, d.valid = true := by
      intro d hd
      rcases List.mem_append.mp hd with h | h
      · exact hv d h
      · rcases List.mem_cons.mp h with rfl | h
        · exact hkv
        · exact hva d h
    refine ⟨_, ParseStanza_block env fn c o _ cl rest hc ho hall hl hcl, ?_⟩
    rw [foldl_opts]
    simp [hk]

/-- C3 at sample blocks: `fallthrough`, then `noendpoints x`; and
`fallthrough`, `noendpoints`, `kubeconfig cfg`. -/
theorem noendpoints_arguments_witness :
    (ParseStanza exEnv (exController (exTokens (exNoendpoints ["x"]))) =
      some ({ exController (exTokens (exNoendpoints ["x"])) with
          toDispenser := st "Corefile"
            (exOpening.tokens ++ flat [exFallthrough] ++ (exNoendpoints ["x"]).tokens)
            [exClose] 1 },
        .error (st "Corefile"
          (exOpening.tokens ++ flat [exFallthrough] ++ (exNoendpoints ["x"]).tokens)
          [exClose] 1).ArgErr) ∧
      (st "Corefile"
          (exOpening.tokens ++ flat [exFallthrough] ++ (exNoendpoints ["x"]).tokens)
          [exClose] 1).ArgErr
        = argErrAt "Corefile" (exNoendpoints ["x"]).last) ∧
    (∃ m, ParseStanza exEnv (exController (exOpening.tokens ++
          flat ([exFallthrough] ++ exNoendpoints [] :: [exKubeconfig ["cfg"]]) ++
          exClose :: [])) =
        some ({ exController (exOpening.tokens ++
            flat ([exFallthrough] ++ exNoendpoints [] :: [exKubeconfig ["cfg"]]) ++
            exClose :: []) with
            toDispenser := st "Corefile" (exOpening.tokens ++
              flat ([exFallthrough] ++ exNoendpoints [] :: [exKubeconfig ["cfg"]]) ++ [exClose])
              [] 0 }, .ok m) ∧
      m.opts.initEndpointsCache = false) :=
  ⟨(noendpoints_arguments exEnv "Corefile" exOpening [exFallthrough] (exNoendpoints ["x"])
      (by decide) (by decide) rfl).1 _ [exClose] rfl (by decide) (by decide),
   (noendpoints_arguments exEnv "Corefile" exOpening [exFallthrough] (exNoendpoints [])
      (by decide) (by decide) rfl).2 _ [exKubeconfig ["cfg"]] exClose [] rfl (by decide) rfl
      (by decide) rfl⟩

/-- C4: in a block whose directives before some token are all valid, when
that token is not `kubeconfig`, `fallthrough` or `noendpoints` (nor the
closing brace), ParseStanza stops at it: it returns no instance and the error
of `c.Errf` for the message `unknown property '<token>'` at that token;
nothing of the tokens behind it is in the result. -/
theorem unknown_property (env : Env) (fn : String) (c : Controller) (o : Opening)
    (ds : List Directive) (u : Token) (rest : List Token)
    (hc : c.toDispenser = NewDispenserTokens fn (o.tokens ++ flat ds ++ u :: rest))
    (ho : o.laidOut = true) (hv : ∀ d ∈ ds, d.valid = true)
    (hl : laidOut ds (u :: rest) = true) (hn : u.Text ≠ "\x7d")
    (h1 : u.Text ≠ "kubeconfig") (h2 : u.Text ≠ "fallthrough") (h3 : u.Text ≠ "noendpoints") :
    ParseStanza env c =
      some ({ c with toDispenser := st fn (o.tokens ++ flat ds ++ [u]) rest 1 },
        .error ((st fn (o.tokens ++ flat ds ++ [u]) rest 1).Errf
          ("unknown property '" ++ u.Text ++ "'"))) ∧
    (st fn (o.tokens ++ flat ds ++ [u]) rest 1).Errf ("unknown property '" ++ u.Text ++ "'") =
      errAt fn u ("unknown property '" ++ u.Text ++ "'") := by
  have hE : (st fn (o.tokens ++ flat ds ++ [u]) rest 1).Errf
      ("unknown property '" ++ u.Text ++ "'") =
      errAt fn u ("unknown property '" ++ u.Text ++ "'") := by
    simp only [Dispenser.Errf, Err_st]
  refine ⟨?_, hE⟩
  rw [hE, ParseStanza_upto env fn c o ds (u :: rest) hc ho hv hl]
  have e : o.tokens.length + ((flat ds).length - ds.length) + (u :: rest).length + 1 =
      (o.tokens.length + ((flat ds).length - ds.length) + rest.length + 1) + 1 := by
    simp; omega
  rw [e, loop_unknown env fn _ u rest _ _ hn h1 h2 h3]
  rfl

/-- C4 at the sample block `fallthrough`, `kubeconfi cfg`, `noendpoints x`:
the error names `kubeconfi`, and the bad `noendpoints` line behind it plays
no part. -/
theorem unknown_property_witness :
    ParseStanza exEnv (exController (exOpening.tokens ++ flat [exFallthrough] ++
        exToken 3 "kubeconfi" :: [exToken 3 "cfg", exToken 4 "noendpoints", exToken 4 "x",
          exClose])) =
      some ({ exController (exOpening.tokens ++ flat [exFallthrough] ++
          exToken 3 "kubeconfi" :: [exToken 3 "cfg", exToken 4 "noendpoints", exToken 4 "x",
            exClose]) with
          toDispenser := st "Corefile"
            (exOpening.tokens ++ flat [exFallthrough] ++ [exToken 3 "kubeconfi"])
            [exToken 3 "cfg", exToken 4 "noendpoints", exToken 4 "x", exClose] 1 },
        .error ((st "Corefile"
            (exOpening.tokens ++ flat [exFallthrough] ++ [exToken 3 "kubeconfi"])
            [exToken 3 "cfg", exToken 4 "noendpoints", exToken 4 "x", exClose] 1).Errf
          ("unknown property '" ++ (exToken 3 "kubeconfi").Text ++ "'"))) ∧
    (st "Corefile"
        (exOpening.tokens ++ flat [exFallthrough] ++ [exToken 3 "kubeconfi"])
        [exToken 3 "cfg", exToken 4 "noendpoints", exToken 4 "x", exClose] 1).Errf
      ("unknown property '" ++ (exToken 3 "kubeconfi").Text ++ "'") =
      errAt "Corefile" (exToken 3 "kubeconfi")
        ("unknown property '" ++ (exToken 3 "kubeconfi").Text ++ "'") :=
  unknown_property exEnv "Corefile" _ exOpening [exFallthrough] (exToken 3 "kubeconfi")
    [exToken 3 "cfg", exToken 4 "noendpoints", exToken 4 "x", exClose] rfl (by decide)
    (by decide) (by decide) (by decide) (by decide) (by decide) (by decide)

/-- C5: for a stanza that is the label alone, or the label and an empty
block, ParseStanza returns an instance whose `opts.initEndpointsCache` is
true, whose `ClientConfig` is nil, whose `Fall` is as `New` made it, and
whose zones are the origins of the keys of the server block. -/
theorem bare_label_defaults (env : Env) (fn : String) (c : Controller) (s : Stanza)
    (rest : List Token) (hc : c.toDispenser = NewDispenserTokens fn (s.tokens ++ rest))
    (hl : s.laidOut rest = true) (hz : s.zones = []) (hb : s.body = []) :
    ∃ m, ParseStanza env c = some ({ c with toDispenser := st fn s.tokens rest 0 }, .ok m) ∧
      m.opts.initEndpointsCache = true ∧
      m.ClientConfig = none ∧
      m.Fall = (New m.Zones).Fall ∧
      m.Zones = env.originsFromServerBlock c.ServerBlockKeys := by
  have hv : ∀ d ∈ s.body, d.valid = true := by rw [hb]; simp
  refine ⟨_, ParseStanza_valid env fn c s rest hc hl hv, ?_⟩
  rw [hb, hz]
  simp [newInstance, New, OriginsFromArgsOrServerBlock]

/-- C5 at the label alone, followed by a later stanza, and at the label with
an empty block. -/
theorem bare_label_defaults_witness :
    (∃ m, ParseStanza exEnv (exController (exBare.tokens ++ [exToken 7 "multicluster"])) =
        some ({ exController (exBare.tokens ++ [exToken 7 "multicluster"]) with
          toDispenser := st "Corefile" exBare.tokens [exToken 7 "multicluster"] 0 }, .ok m) ∧
      m.opts.initEndpointsCache = true ∧ m.ClientConfig = none ∧
      m.Fall = (New m.Zones).Fall ∧ m.Zones = exEnv.originsFromServerBlock ["."]) ∧
    (∃ m, ParseStanza exEnv (exController (exEmpty.tokens ++ [])) =
        some ({ exController (exEmpty.tokens ++ []) with
          toDispenser := st "Corefile" exEmpty.tokens [] 0 }, .ok m) ∧
      m.opts.initEndpointsCache = true ∧ m.ClientConfig = none ∧
      m.Fall = (New m.Zones).Fall ∧ m.Zones = exEnv.originsFromServerBlock ["."]) :=
  ⟨bare_label_defaults exEnv "Corefile" (exController (exBare.tokens ++ [exToken 7 "multicluster"]))
      exBare [exToken 7 "multicluster"] rfl (by decide) rfl rfl,
   bare_label_defaults exEnv "Corefile" (exController (exEmpty.tokens ++ [])) exEmpty [] rfl
      (by decide) rfl rfl⟩

/-- C6: for a stanza whose block directives are all valid (`kubeconfig` with
one or two arguments, `fallthrough` with any, `noendpoints` with none),
ParseStanza returns an instance and no error; its zones are the origins of
the label's arguments, or of the server block keys when the label has none;
`opts.initEndpointsCache` is false exactly when `noendpoints` occurs; and
`Fall` is what `SetZonesFromArgs` makes of the arguments of the last
`fallthrough` directive (the root zone for no arguments), or as `New` made
it when there is no such directive. -/
theorem valid_stanza_reflects_input (env : Env) (fn : String) (c : Controller) (s : Stanza)
    (rest : List Token) (hc : c.toDispenser = NewDispenserTokens fn (s.tokens ++ rest))
    (hl : s.laidOut rest = true) (hv : ∀ d ∈ s.body, d.valid = true) :
    ∃ m, ParseStanza env c = some ({ c with toDispenser := st fn s.tokens rest 0 }, .ok m) ∧
      m.Zones = (if s.zones = [] then env.originsFromServerBlock c.ServerBlockKeys
        else env.originsFromArgs (s.zones.map Token.Text)) ∧
      (m.opts.initEndpointsCache = false ↔ ∃ d ∈ s.body, d.name.Text = "noendpoints") ∧
      m.Fall = (match lastNamed "fallthrough" s.body with
        | none => (New m.Zones).Fall
        | some d =>
          if d.args = [] then { Zones := ["."] }
          else { Zones := d.args.map (fun a => env.normalize a.Text) }) := by
  refine ⟨_, ParseStanza_valid env fn c s rest hc hl hv, ?_, ?_, ?_⟩
  · rw [foldl_Zones]
    by_cases hz : s.zones = []
    · simp [newInstance, New, OriginsFromArgsOrServerBlock, hz]
    · have : ¬ (s.zones.map Token.Text).length = 0 := by
        simpa using hz
      simp [newInstance, New, OriginsFromArgsOrServerBlock, hz]
  · rw [foldl_opts]
    simp [newInstance]
  · rw [foldl_Fall, foldl_Zones]
    cases lastNamed "fallthrough" s.body with
    | none => simp [newInstance, New]
    | some d =>
      by_cases hd : d.args = []
      · simp [F.SetZonesFromArgs, Directive.argTexts, hd]
      · simp [F.SetZonesFromArgs, Directive.argTexts, hd]

/-- C6 at the sample stanza with the block `fallthrough`,
`kubeconfig cfg ctx`, `noendpoints`. -/
theorem valid_stanza_reflects_input_witness :
    ∃ m, ParseStanza exEnv (exController ((exStanza exBody).tokens ++ [])) =
        some ({ exController ((exStanza exBody).tokens ++ []) with
          toDispenser := st "Corefile" (exStanza exBody).tokens [] 0 }, .ok m) ∧
      m.Zones = (if (exStanza exBody).zones = [] then exEnv.originsFromServerBlock ["."]
        else exEnv.originsFromArgs ((exStanza exBody).zones.map Token.Text)) ∧
      (m.opts.initEndpointsCache = false ↔
        ∃ d ∈ (exStanza exBody).body, d.name.Text = "noendpoints") ∧
      m.Fall = (match lastNamed "fallthrough" (exStanza exBody).body with
        | none => (New m.Zones).Fall
        | some d =>
          if d.args = [] then { Zones := ["."] }
          else { Zones := d.args.map (fun a => exEnv.normalize a.Text) }) :=
  valid_stanza_reflects_input exEnv "Corefile" (exController ((exStanza exBody).tokens ++ []))
    (exStanza exBody) [] rfl (by decide) (by decide)

/-! ## The claims about setup -/

/-- The loop never writes `nsAddrsFunc` or `Next`. -/
theorem loop_frame (env : Env) :
    ∀ (fuel : Nat) (d : Dispenser) (m : MultiCluster) (d2 : Dispenser) (m2 : MultiCluster),
      ParseStanza_loop env fuel d m = some (d2, .ok m2) →
      m2.nsAddrsFunc = m.nsAddrsFunc ∧ m2.Next = m.Next := by
  intro fuel
  induction fuel with
  | zero => intro d m d2 m2 h; simp [ParseStanza_loop] at h
  | succ n ih =>
    intro d m d2 m2 h
    simp only [ParseStanza_loop] at h
    split_ifs at h <;>
      first
      | (have h2 := ih _ _ _ _ h; exact h2)
      | (simp only [Option.some.injEq, Prod.mk.injEq, Except.ok.injEq] at h
         rw [← h.2]; exact ⟨rfl, rfl⟩)
      | simp at h

theorem ParseStanza_frame (env : Env) (c c1 : Controller) (r : Except Error MultiCluster)
    (h : ParseStanza env c = some (c1, r)) :
    c1.inst = c.inst ∧ c1.config = c.config ∧ c1.calls = c.calls ∧
      c1.ServerBlockKeys = c.ServerBlockKeys := by
  unfold ParseStanza at h
  simp only [Option.map_eq_some', Prod.mk.injEq] at h
  obtain ⟨out, _, h2, _⟩ := h
  rw [← h2]
  exact ⟨rfl, rfl, rfl, rfl⟩

theorem ParseStanza_unbound (env : Env) (c c1 : Controller) (m : MultiCluster)
    (h : ParseStanza env c = some (c1, .ok m)) :
    m.nsAddrsFunc = none ∧ m.Next = none := by
  unfold ParseStanza at h
  simp only [Option.map_eq_some', Prod.mk.injEq] at h
  obtain ⟨out, h1, _, h3⟩ := h
  obtain ⟨d2, r⟩ := out
  simp only at h3
  subst h3
  have := loop_frame env _ _ _ _ _ h1
  simpa [New] using this

/-- C7: setup is all or nothing. When ParseStanza returns an error, and when
InitController returns one, setup returns that error under the name of the
plugin, and the hook lists and the plugin chain are as they were; when both
succeed, setup returns no error, keeps the parsed instance, and the plugin
chain has grown by exactly the closure that returns that instance. -/
theorem setup_all_or_nothing (env : Env) (c : Controller) :
    (∀ c1 e, ParseStanza env c = some (c1, .error e) →
      ∃ r, setup env c = some r ∧ r.err = some (Error.plugin pluginName e) ∧
        r.c.inst.OnStartup = c.inst.OnStartup ∧ r.c.inst.OnShutdown = c.inst.OnShutdown ∧
        r.c.config.Plugin = c.config.Plugin ∧ r.c.calls = c.calls) ∧
    (∀ c1 m e, ParseStanza env c = some (c1, .ok m) → env.InitController m = .error e →
      ∃ r, setup env c = some r ∧ r.err = some (Error.plugin pluginName e) ∧
        r.c.inst.OnStartup = c.inst.OnStartup ∧ r.c.inst.OnShutdown = c.inst.OnShutdown ∧
        r.c.config.Plugin = c.config.Plugin ∧ r.c.calls = c.calls) ∧
    (∀ c1 m onStart onShut, ParseStanza env c = some (c1, .ok m) →
      env.InitController m = .ok (onStart, onShut) →
      ∃ r, setup env c = some r ∧ r.err = none ∧ r.multiCluster = some m ∧
        r.c.config.Plugin = c.config.Plugin ++ [Plugin.multiCluster]) := by
  refine ⟨?_, ?_, ?_⟩
  · intro c1 e h
    obtain ⟨h1, h2, h3, _⟩ := ParseStanza_frame env c c1 _ h
    have hs : setup env c =
        some { c := c1, multiCluster := none, err := some (Error.plugin pluginName e) } := by
      simp only [setup, h]
    exact ⟨_, hs, rfl, by simp only [h1], by simp only [h1], by simp only [h2], h3⟩
  · intro c1 m e h hi
    obtain ⟨h1, h2, h3, _⟩ := ParseStanza_frame env c c1 _ h
    have hs : setup env c =
        some { c := c1, multiCluster := some m, err := some (Error.plugin pluginName e) } := by
      simp only [setup, h, hi]
    exact ⟨_, hs, rfl, by simp only [h1], by simp only [h1], by simp only [h2], h3⟩
  · intro c1 m onStart onShut h hi
    obtain ⟨h1, h2, h3, _⟩ := ParseStanza_frame env c c1 _ h
    simp only [setup, h, hi, Option.some.injEq, exists_eq_left', true_and]
    cases onStart <;> cases onShut <;>
      simp [Controller.AddPlugin, Controller.OnStartup, Controller.OnShutdown, h2]

/-- C7 at the sample Corefile: a stanza with an unknown directive, a valid
stanza whose InitController fails, and a valid stanza whose InitController
succeeds. -/
theorem setup_all_or_nothing_witness :
    (∃ r, setup exEnv (exController ((exStanza [exKubeconfig []]).tokens)) = some r ∧
      r.err = some (Error.plugin pluginName (Error.New
        "Corefile:3 - Error during parsing: Wrong argument count or unexpected line ending after 'kubeconfig'")) ∧
      r.c.inst.OnStartup = [] ∧ r.c.inst.OnShutdown = [] ∧ r.c.config.Plugin = [] ∧
      r.c.calls = []) ∧
    (∃ r, setup exEnvFail (exController ((exStanza exBody).tokens)) = some r ∧
      r.err = some (Error.plugin pluginName (Error.New "no cluster access")) ∧
      r.c.inst.OnStartup = [] ∧ r.c.inst.OnShutdown = [] ∧ r.c.config.Plugin = [] ∧
      r.c.calls = []) ∧
    (∃ r, setup exEnv (exController ((exStanza exBody).tokens)) = some r ∧ r.err = none ∧
      r.multiCluster = some exInstance ∧ r.c.config.Plugin = [] ++ [Plugin.multiCluster]) :=
  ⟨(setup_all_or_nothing exEnv (exController ((exStanza [exKubeconfig []]).tokens))).1 _ _ rfl,
   (setup_all_or_nothing exEnvFail (exController ((exStanza exBody).tokens))).2.1 _ _ _ rfl rfl,
   (setup_all_or_nothing exEnv (exController ((exStanza exBody).tokens))).2.2 _ _ _ _ rfl rfl⟩

/-- C8: when no handler is registered under the name `kubernetes`, the hook
that binds the lookup returns the error `kubernetes plugin not loaded` under
the name of the plugin and leaves the instance as it was; for the instance of
a setup that has just returned, `nsAddrsFunc` was nil and so stays nil. -/
theorem bind_without_kubernetes (cfg : Config) (hcfg : cfg.Handler "kubernetes" = none) :
    (∀ m : MultiCluster, bindNsAddrsFunc cfg m =
      .returns (m, some (Error.plugin "multicluster" (Error.New "kubernetes plugin not loaded")))) ∧
    (∀ (env : Env) (c : Controller) (r : SetupResult) (m : MultiCluster),
      setup env c = some r → r.multiCluster = some m →
      ∃ e, bindNsAddrsFunc cfg m = .returns (m, some e) ∧ m.nsAddrsFunc = none) := by
  have key : ∀ m : MultiCluster, bindNsAddrsFunc cfg m =
      .returns (m, some (Error.plugin "multicluster" (Error.New "kubernetes plugin not loaded"))) := by
    intro m
    simp [bindNsAddrsFunc, hcfg, pluginName]
  refine ⟨key, ?_⟩
  intro env c r m hs hm
  refine ⟨_, key m, ?_⟩
  unfold setup at hs
  split at hs
  · simp at hs
  · simp only [Option.some.injEq] at hs
    subst hs
    simp at hm
  · rename_i c1 m1 hp
    have hu := (ParseStanza_unbound env c c1 m1 hp).1
    split at hs
    · simp only [Option.some.injEq] at hs
      subst hs
      simp only [Option.some.injEq] at hm
      subst hm; exact hu
    · simp only [Option.some.injEq] at hs
      subst hs
      simp only [Option.some.injEq] at hm
      subst hm; exact hu

/-- C8 at a server configuration without the kubernetes plugin. -/
theorem bind_without_kubernetes_witness :
    (∀ m : MultiCluster, bindNsAddrsFunc exConfigNone m =
      .returns (m, some (Error.plugin "multicluster" (Error.New "kubernetes plugin not loaded")))) ∧
    (∀ (env : Env) (c : Controller) (r : SetupResult) (m : MultiCluster),
      setup env c = some r → r.multiCluster = some m →
      ∃ e, bindNsAddrsFunc exConfigNone m = .returns (m, some e) ∧ m.nsAddrsFunc = none) :=
  bind_without_kubernetes exConfigNone (by decide)

/-- C9, where the code leaves the claim: the registry holds a handler under
the name `kubernetes`, and the binding hook panics in the type assertion,
both for a handler of type `*kubernetes.Kubernetes` and for a handler of
another package that is named `kubernetes`. -/
theorem bind_panics_on_other_dynamic_type :
    exConfigPtr.Handler "kubernetes" = some (Handler.kubernetesPtr { ident := 0 }) ∧
    bindNsAddrsFunc exConfigPtr exInstance = Run.panics ∧
    exConfigOther.Handler "kubernetes" = some (Handler.other "*example.Handler" "kubernetes") ∧
    bindNsAddrsFunc exConfigOther exInstance = Run.panics := by
  decide

/-- C10: after a setup that returned no error, the instance is the one
ParseStanza returned, with `nsAddrsFunc` still nil; the startup hooks have
grown by `onStart` (when not nil) and then the binding hook, the shutdown
hooks by `onShut` alone (when not nil), the plugin chain by the closure of the
instance; the calls were made in the order OnStartup(onStart),
OnShutdown(onShut), AddPlugin, OnStartup(binding hook), and no other call
was made; and the closure added to the chain stores exactly the `next` it is
given and returns the instance. -/
theorem setup_registration_order (env : Env) (c : Controller) (r : SetupResult)
    (hs : setup env c = some r) (herr : r.err = none) :
    ∃ c1 m onStart onShut,
      ParseStanza env c = some (c1, .ok m) ∧ env.InitController m = .ok (onStart, onShut) ∧
      r.multiCluster = some m ∧ m.nsAddrsFunc = none ∧
      r.c.inst.OnStartup =
        c.inst.OnStartup ++ onStart.toList.map Hook.callback ++ [Hook.bindNsAddrs] ∧
      r.c.inst.OnShutdown = c.inst.OnShutdown ++ onShut.toList.map Hook.callback ∧
      r.c.config.Plugin = c.config.Plugin ++ [Plugin.multiCluster] ∧
      r.c.calls = c.calls ++
        onStart.toList.map (fun fn => HostCall.OnStartup (Hook.callback fn)) ++
        onShut.toList.map (fun fn => HostCall.OnShutdown (Hook.callback fn)) ++
        [HostCall.AddPlugin Plugin.multiCluster, HostCall.OnStartup Hook.bindNsAddrs] ∧
      (∀ next : Handler,
        addPluginFunc m next = ({ m with Next := some next }, Handler.multiCluster)) := by
  unfold setup at hs
  split at hs
  · simp at hs
  · simp only [Option.some.injEq] at hs
    subst hs
    simp at herr
  · rename_i c1 m hp
    obtain ⟨h1, h2, h3, _⟩ := ParseStanza_frame env c c1 _ hp
    have hu := (ParseStanza_unbound env c c1 m hp).1
    split at hs
    · simp only [Option.some.injEq] at hs
      subst hs
      simp at herr
    · rename_i onStart onShut hi
      simp only [Option.some.injEq] at hs
      subst hs
      refine ⟨c1, m, onStart, onShut, hp, hi, rfl, hu, ?_, ?_, ?_, ?_, fun _ => rfl⟩ <;>
        cases onStart <;> cases onShut <;>
        simp [Controller.AddPlugin, Controller.OnStartup, Controller.OnShutdown, h1, h2, h3]

/-- C10 at the sample stanza, with both callbacks of InitController. -/
theorem setup_registration_order_witness :
    ∃ c1 m onStart onShut,
      ParseStanza exEnv (exController ((exStanza exBody).tokens)) = some (c1, .ok m) ∧
      exEnv.InitController m = .ok (onStart, onShut) ∧
      (some exInstance : Option MultiCluster) = some m ∧ m.nsAddrsFunc = none ∧
      [Hook.callback { label := "onStart" }, Hook.bindNsAddrs] =
        [] ++ onStart.toList.map Hook.callback ++ [Hook.bindNsAddrs] ∧
      [Hook.callback { label := "onShut" }] = [] ++ onShut.toList.map Hook.callback ∧
      [Plugin.multiCluster] = [] ++ [Plugin.multiCluster] ∧
      [HostCall.OnStartup (Hook.callback { label := "onStart" }),
        HostCall.OnShutdown (Hook.callback { label := "onShut" }),
        HostCall.AddPlugin Plugin.multiCluster, HostCall.OnStartup Hook.bindNsAddrs] = [] ++
        onStart.toList.map (fun fn => HostCall.OnStartup (Hook.callback fn)) ++
        onShut.toList.map (fun fn => HostCall.OnShutdown (Hook.callback fn)) ++
        [HostCall.AddPlugin Plugin.multiCluster, HostCall.OnStartup Hook.bindNsAddrs] ∧
      (∀ next : Handler,
        addPluginFunc m next = ({ m with Next := some next }, Handler.multiCluster)) :=
  setup_registration_order exEnv (exController ((exStanza exBody).tokens))
    { c := { exController ((exStanza exBody).tokens) with
        toDispenser := st "Corefile" (exStanza exBody).tokens [] 0,
        inst := { OnStartup := [Hook.callback { label := "onStart" }, Hook.bindNsAddrs],
                  OnShutdown := [Hook.callback { label := "onShut" }] },
        config := { Plugin := [Plugin.multiCluster] },
        calls := [HostCall.OnStartup (Hook.callback { label := "onStart" }),
          HostCall.OnShutdown (Hook.callback { label := "onShut" }),
          HostCall.AddPlugin Plugin.multiCluster, HostCall.OnStartup Hook.bindNsAddrs] },
      multiCluster := some exInstance, err := none }
    rfl rfl

/-! ## The turn bound of ParseStanza loses nothing -/

theorem NextArg_facts (d : Dispenser) :
    d.NextArg.1.tokens = d.tokens ∧
    (d.NextArg.2 = true → d.NextArg.1.cursor = d.cursor + 1) ∧
    (d.NextArg.2 = false → d.NextArg.1 = d) ∧
    (d.NextArg.2 = true → 0 ≤ d.cursor → d.cursor < (d.tokens.length : Int) - 1) := by
  unfold Dispenser.NextArg
  split_ifs with h1 h2 h3
  · exact ⟨rfl, fun _ => rfl, fun h => by simp at h, fun _ h0 => by omega⟩
  · exact ⟨rfl, fun h => by simp at h, fun _ => rfl, fun h => by simp at h⟩
  · exact ⟨rfl, fun _ => rfl, fun h => by simp at h, fun _ _ => h3.1⟩
  · exact ⟨rfl, fun h => by simp at h, fun _ => rfl, fun h => by simp at h⟩

theorem remainingArgsLoop_facts :
    ∀ (fuel : Nat) (d : Dispenser) (acc : List String),
      (d.remainingArgsLoop fuel acc).1.tokens = d.tokens ∧
      d.cursor ≤ (d.remainingArgsLoop fuel acc).1.cursor := by
  intro fuel
  induction fuel with
  | zero => intro d acc; simp [Dispenser.remainingArgsLoop]
  | succ n ih =>
    intro d acc
    obtain ⟨ht, hc, hf, _⟩ := NextArg_facts d
    rw [Dispenser.remainingArgsLoop]
    by_cases hb : d.NextArg.2 = true
    · simp only [hb, if_true]
      by_cases hv : d.NextArg.1.Val = "\x7b"
      · simp only [hv, if_true]
        exact ⟨ht, by rw [hc hb]; omega⟩
      · simp only [hv, if_false]
        obtain ⟨i1, i2⟩ := ih d.NextArg.1 (acc ++ [d.NextArg.1.Val])
        exact ⟨i1.trans ht, by rw [hc hb] at i2; omega⟩
    · have hb2 : d.NextArg.2 = false := by simpa using hb
      simp only [hb2]
      rw [hf hb2]
      simp

theorem remainingArgsLoop_stuck (fuel : Nat) (d : Dispenser) (acc : List String)
    (h0 : 0 ≤ d.cursor) (h1 : (d.tokens.length : Int) - 1 ≤ d.cursor) :
    d.remainingArgsLoop fuel acc = (d, acc) := by
  cases fuel with
  | zero => rfl
  | succ n =>
    obtain ⟨_, _, hf, hlt⟩ := NextArg_facts d
    have hb : d.NextArg.2 = false := by
      by_contra hb
      have hb2 : d.NextArg.2 = true := by simpa using hb
      have := hlt hb2 h0
      omega
    rw [Dispenser.remainingArgsLoop]
    simp only [hb, hf hb]
    simp

theorem remainingArgsLoop_fuel :
    ∀ (fuel k : Nat) (d : Dispenser) (acc : List String),
      (d.tokens.length : Int) - d.cursor + 1 ≤ fuel →
      d.remainingArgsLoop (fuel + k) acc = d.remainingArgsLoop fuel acc := by
  intro fuel
  induction fuel with
  | zero =>
    intro k d acc h
    have h0 : 0 ≤ d.cursor := by omega
    have h1 : (d.tokens.length : Int) - 1 ≤ d.cursor := by omega
    rw [remainingArgsLoop_stuck _ d acc h0 h1, remainingArgsLoop_stuck _ d acc h0 h1]
  | succ n ih =>
    intro k d acc h
    obtain ⟨ht, hc, _, _⟩ := NextArg_facts d
    have e : n + 1 + k = (n + k) + 1 := by omega
    rw [e, Dispenser.remainingArgsLoop, Dispenser.remainingArgsLoop]
    by_cases hb : d.NextArg.2 = true
    · simp only [hb, if_true]
      have hn : (d.NextArg.1.tokens.length : Int) - d.NextArg.1.cursor + 1 ≤ n := by
        rw [ht, hc hb]; push_cast at h; omega
      rw [ih k d.NextArg.1 _ hn]
    · have hb2 : d.NextArg.2 = false := by simpa using hb
      simp only [hb2]
      rfl

theorem RemainingArgs_facts (d : Dispenser) :
    d.RemainingArgs.1.tokens = d.tokens ∧ d.cursor ≤ d.RemainingArgs.1.cursor :=
  remainingArgsLoop_facts _ d []

theorem RemainingArgs_stuck (d : Dispenser) (h0 : 0 ≤ d.cursor)
    (h1 : (d.tokens.length : Int) - 1 ≤ d.cursor) : d.RemainingArgs = (d, []) :=
  remainingArgsLoop_stuck _ d [] h0 h1

theorem Next_facts (d : Dispenser) :
    d.Next.1.tokens = d.tokens ∧ d.Next.1.nesting = d.nesting ∧
    (d.cursor < (d.tokens.length : Int) - 1 → d.Next.1.cursor = d.cursor + 1) ∧
    ((d.tokens.length : Int) - 1 ≤ d.cursor → d.Next.1 = d) := by
  unfold Dispenser.Next
  split_ifs with h
  · exact ⟨rfl, rfl, fun _ => rfl, fun h2 => by omega⟩
  · exact ⟨rfl, rfl, fun h2 => absurd h2 h, fun _ => rfl⟩

theorem NextBlock_facts (d : Dispenser) (h0 : 0 ≤ d.cursor) (hb : d.NextBlock.2 = true) :
    d.NextBlock.1.tokens = d.tokens ∧
    ((d.cursor < (d.tokens.length : Int) - 1 ∧ d.cursor + 1 ≤ d.NextBlock.1.cursor) ∨
     ((d.tokens.length : Int) - 1 ≤ d.cursor ∧ d.NextBlock.1 = d ∧ 0 < d.nesting)) := by
  obtain ⟨nt, nn, nc, ns⟩ := Next_facts d
  obtain ⟨at_, ac, af, al⟩ := NextArg_facts d
  unfold Dispenser.NextBlock at hb ⊢
  by_cases hn : d.nesting > 0
  · rw [if_pos hn] at hb ⊢
    by_cases hv : d.Next.1.Val = "\x7d"
    · simp [hv] at hb
    · simp only [hv, if_false]
      refine ⟨nt, ?_⟩
      by_cases hc : d.cursor < (d.tokens.length : Int) - 1
      · left; exact ⟨hc, by rw [nc hc]⟩
      · right; exact ⟨by omega, ns (by omega), hn⟩
  · rw [if_neg hn] at hb ⊢
    by_cases ha : d.NextArg.2 = true
    · have hlt := al ha h0
      obtain ⟨nt2, _, nc2, ns2⟩ := Next_facts d.NextArg.1
      simp only [ha, Bool.not_true, Bool.false_eq_true, if_false] at hb ⊢
      by_cases hv : d.NextArg.1.Val ≠ "\x7b"
      · simp [hv] at hb
      · simp only [hv, if_false] at hb ⊢
        by_cases hv2 : d.NextArg.1.Next.1.Val = "\x7d"
        · simp [hv2] at hb
        · simp only [hv2, if_false]
          refine ⟨nt2.trans at_, Or.inl ⟨hlt, ?_⟩⟩
          by_cases hc : d.NextArg.1.cursor < (d.NextArg.1.tokens.length : Int) - 1
          · show d.cursor + 1 ≤ d.NextArg.1.Next.1.cursor
            rw [nc2 hc, ac ha]; omega
          · show d.cursor + 1 ≤ d.NextArg.1.Next.1.cursor
            rw [ns2 (by omega), ac ha]
    · have ha2 : d.NextArg.2 = false := by simpa using ha
      simp [ha2] at hb

theorem loop_stuck_fallthrough (env : Env) (d : Dispenser) (h0 : 0 ≤ d.cursor)
    (h1 : (d.tokens.length : Int) - 1 ≤ d.cursor) (hb : d.NextBlock = (d, true))
    (hv : d.Val = "fallthrough" ∨ d.Val = "noendpoints") :
    ∀ (n : Nat) (m : MultiCluster), ParseStanza_loop env n d m = none := by
  have hR := RemainingArgs_stuck d h0 h1
  intro n
  induction n with
  | zero => intro m; rfl
  | succ n ih =>
    intro m
    rw [ParseStanza_loop]
    rcases hv with hv | hv
    · have hk : d.Val ≠ "kubeconfig" := by rw [hv]; decide
      simp only [hb, if_true, if_neg hk, hv, hR, ih]
      simp
    · have hk : d.Val ≠ "kubeconfig" := by rw [hv]; decide
      have hf : d.Val ≠ "fallthrough" := by rw [hv]; decide
      simp only [hb, if_true, if_neg hk, if_neg hf, hv, hR, ih]
      simp

theorem loop_fuel (env : Env) :
    ∀ (fuel k : Nat) (d : Dispenser) (m : MultiCluster),
      0 ≤ d.cursor → ((d.tokens.length : Int) - 1 - d.cursor).toNat + 1 ≤ fuel →
      ParseStanza_loop env (fuel + k) d m = ParseStanza_loop env fuel d m := by
  intro fuel
  induction fuel with
  | zero => intro k d m _ h; omega
  | succ f ih =>
    intro k d m h0 hf
    have e : f + 1 + k = (f + k) + 1 := by omega
    rw [e, ParseStanza_loop, ParseStanza_loop]
    by_cases hb : d.NextBlock.2 = true
    · obtain ⟨ht, hcase⟩ := NextBlock_facts d h0 hb
      obtain ⟨rt, rc⟩ := RemainingArgs_facts d.NextBlock.1
      rcases hcase with ⟨hlt, hadv⟩ | ⟨hge, hsame, hnest⟩
      · have key : ∀ m2, ParseStanza_loop env (f + k) d.NextBlock.1.RemainingArgs.1 m2 =
            ParseStanza_loop env f d.NextBlock.1.RemainingArgs.1 m2 := by
          intro m2
          apply ih
          · omega
          · rw [rt, ht]; omega
        simp only [key]
      · have hbb : d.NextBlock = (d, true) := Prod.ext hsame hb
        rw [hbb]
        simp only [if_true]
        by_cases v1 : d.Val = "fallthrough" ∨ d.Val = "noendpoints"
        · have hnone := loop_stuck_fallthrough env d h0 hge hbb v1
          have hR := RemainingArgs_stuck d h0 hge
          rcases v1 with v | v
          · simp [v, hR, hnone]
          · simp [v, hR, hnone]
        · have hR := RemainingArgs_stuck d h0 hge
          have v2 : d.Val ≠ "fallthrough" := fun h => v1 (Or.inl h)
          have v3 : d.Val ≠ "noendpoints" := fun h => v1 (Or.inr h)
          by_cases hk : d.Val = "kubeconfig"
          · simp [hk, hR]
          · simp only [if_neg hk, if_neg v2, if_neg v3]
    · simp [hb]

/-! ## Further properties -/

/-- On a laid-out stanza ParseStanza always returns, and it returns an
instance exactly when every directive of the block is valid; otherwise it
returns an error. -/
theorem ParseStanza_returns (env : Env) (fn : String) (c : Controller) (s : Stanza)
    (rest : List Token) (hc : c.toDispenser = NewDispenserTokens fn (s.tokens ++ rest))
    (hl : s.laidOut rest = true) :
    ((∀ d ∈ s.body, d.valid = true) → ∃ c2 m, ParseStanza env c = some (c2, .ok m)) ∧
    ((¬ ∀ d ∈ s.body, d.valid = true) → ∃ c2 e, ParseStanza env c = some (c2, .error e)) :=
  ⟨fun hv => ⟨_, _, ParseStanza_valid env fn c s rest hc hl hv⟩,
   fun hinv => ParseStanza_rejects env fn c s rest hc hl hinv⟩

/-- ParseStanza_returns at the sample stanza, once with a valid block and once
with `kubeconfig` without arguments. -/
theorem ParseStanza_returns_witness :
    (∃ c2 m, ParseStanza exEnv (exController ((exStanza exBody).tokens ++ [])) =
      some (c2, .ok m)) ∧
    (∃ c2 e, ParseStanza exEnv (exController ((exStanza [exKubeconfig []]).tokens ++ [])) =
      some (c2, .error e)) :=
  ⟨(ParseStanza_returns exEnv "Corefile" _ (exStanza exBody) [] rfl (by decide)).1 (by decide),
   (ParseStanza_returns exEnv "Corefile" _ (exStanza [exKubeconfig []]) [] rfl (by decide)).2
     (by decide)⟩

/-- ParseStanza touches nothing of the controller but its dispenser: hook
lists, plugin chain, registry and server block keys are as before, whatever
the tokens and whatever the outcome. -/
theorem ParseStanza_changes_dispenser_only (env : Env) (c c1 : Controller)
    (r : Except Error MultiCluster) (h : ParseStanza env c = some (c1, r)) :
    c1.inst = c.inst ∧ c1.config = c.config ∧ c1.ServerBlockKeys = c.ServerBlockKeys := by
  obtain ⟨h1, h2, _, h4⟩ := ParseStanza_frame env c c1 r h
  exact ⟨h1, h2, h4⟩

/-- ParseStanza_changes_dispenser_only at the sample stanza. -/
theorem ParseStanza_changes_dispenser_only_witness :
    ({ exController ((exStanza exBody).tokens) with
        toDispenser := st "Corefile" (exStanza exBody).tokens [] 0 } : Controller).inst =
      (exController ((exStanza exBody).tokens)).inst ∧
    ({ exController ((exStanza exBody).tokens) with
        toDispenser := st "Corefile" (exStanza exBody).tokens [] 0 } : Controller).config =
      (exController ((exStanza exBody).tokens)).config ∧
    ({ exController ((exStanza exBody).tokens) with
        toDispenser := st "Corefile" (exStanza exBody).tokens [] 0 } : Controller).ServerBlockKeys =
      (exController ((exStanza exBody).tokens)).ServerBlockKeys :=
  ParseStanza_changes_dispenser_only exEnv (exController ((exStanza exBody).tokens)) _
    (.ok exInstance) rfl

/-- The binding hook on a handler of type `kubernetes.Kubernetes`: it returns
nil and has bound `nsAddrsFunc` to the `NsAddrsPlugin` of that handler. -/
theorem bind_with_kubernetes_value (cfg : Config) (x : Kubernetes) (m : MultiCluster)
    (hcfg : cfg.Handler "kubernetes" = some (Handler.kubernetes x)) :
    bindNsAddrsFunc cfg m =
      .returns ({ m with nsAddrsFunc := some (NsAddrsFunc.NsAddrsPlugin x) }, none) := by
  simp [bindNsAddrsFunc, hcfg]

/-- The binding hook at a registry with a `kubernetes.Kubernetes` value. -/
theorem bind_with_kubernetes_value_witness :
    bindNsAddrsFunc exConfigValue exInstance =
      .returns ({ exInstance with
        nsAddrsFunc := some (NsAddrsFunc.NsAddrsPlugin { ident := 0 }) }, none) :=
  bind_with_kubernetes_value exConfigValue { ident := 0 } exInstance (by decide)
/-- RemainingArgs never runs short of turns when the cursor is at `-1` or
further on: with more fuel its loop returns the same. -/
theorem RemainingArgs_turn_bound (d : Dispenser) (k : Nat) (hcur : -1 ≤ d.cursor) :
    d.remainingArgsLoop (d.tokens.length + 2 + k) [] = d.RemainingArgs := by
  unfold Dispenser.RemainingArgs
  exact remainingArgsLoop_fuel (d.tokens.length + 2) k d [] (by push_cast; omega)

/-- RemainingArgs_turn_bound at the sample stanza. -/
theorem RemainingArgs_turn_bound_witness :
    (NewDispenserTokens "Corefile" (exStanza exBody).tokens).remainingArgsLoop
        ((NewDispenserTokens "Corefile" (exStanza exBody).tokens).tokens.length + 2 + 5) [] =
      (NewDispenserTokens "Corefile" (exStanza exBody).tokens).RemainingArgs :=
  RemainingArgs_turn_bound (NewDispenserTokens "Corefile" (exStanza exBody).tokens) 5
    (by decide)

/-- The turn bound of ParseStanza loses nothing: on a fresh controller, over
any tokens at all, the loop started with any larger number of turns returns
what ParseStanza returns, and does not return where ParseStanza does not. -/
theorem ParseStanza_turn_bound (env : Env) (c : Controller) (k : Nat) (hcur : c.cursor = -1) :
    (ParseStanza_loop env (c.tokens.length + 1 + k) c.Next.1.RemainingArgs.1
        { New (OriginsFromArgsOrServerBlock env c.Next.1.RemainingArgs.2 c.ServerBlockKeys) with
          opts := { initEndpointsCache := true } }).map
      (fun out => ({ c with toDispenser := out.1 }, out.2)) = ParseStanza env c := by
  unfold ParseStanza
  congr 1
  obtain ⟨nt, _, nc, ns⟩ := Next_facts c.toDispenser
  obtain ⟨rt, rc⟩ := RemainingArgs_facts c.Next.1
  have h0 : 0 ≤ c.Next.1.RemainingArgs.1.cursor := by
    by_cases hL : c.tokens.length = 0
    · have hs : c.Next.1 = c.toDispenser := ns (by rw [hL, hcur]; decide)
      have ht : c.tokens = [] := List.length_eq_zero.mp hL
      rw [hs]
      simp [Dispenser.RemainingArgs, Dispenser.remainingArgsLoop, Dispenser.NextArg,
        Dispenser.Val, ht, hcur]
    · have h1 : c.Next.1.cursor = c.cursor + 1 := nc (by rw [hcur]; omega)
      rw [h1, hcur] at rc
      omega
  apply loop_fuel _ _ _ _ _ h0
  rw [rt, nt]
  omega

/-- ParseStanza_turn_bound at the sample stanza. -/
theorem ParseStanza_turn_bound_witness :
    (ParseStanza_loop exEnv ((exController (exStanza exBody).tokens).tokens.length + 1 + 7)
        (exController (exStanza exBody).tokens).Next.1.RemainingArgs.1
        { New (OriginsFromArgsOrServerBlock exEnv
            (exController (exStanza exBody).tokens).Next.1.RemainingArgs.2
            (exController (exStanza exBody).tokens).ServerBlockKeys) with
          opts := { initEndpointsCache := true } }).map
      (fun out => ({ exController (exStanza exBody).tokens with toDispenser := out.1 }, out.2)) =
      ParseStanza exEnv (exController (exStanza exBody).tokens) :=
  ParseStanza_turn_bound exEnv (exController (exStanza exBody).tokens) 7 rfl

end multicluster
